import Mathlib

/-!
# Verification of the stellar-drift-trader-game simulation core

Shallow embedding of the repository's simulation core:

* `src/utils/SpaceshipPhysicsEngine.ts` — the pure ship-physics function
  (`updateShipState`, `interpolateAngle`) and the mission objective state
  machine (`MissionManager.updateMissionProgress`);
* `src/utils/gameUtils.ts` — `distance`, cargo manipulation (`addCargo`,
  `removeCargo`), collision damage (`applyCollisionDamage`), and the
  procedural galaxy generator (`generateGalaxy`);
* `src/store/useGameStore.ts` — the store actions `fireWeapon` and
  `jumpToSystem`;
* the game loop (`GameLoop.updateCollisionsInternal`).

JavaScript numbers are embedded as real numbers (`ℝ`).  Randomness
(`Math.random()` draws) is embedded as explicit oracle parameters, so a
theorem quantified over the oracles covers every run of the generator.
-/

namespace StellarDrift

/-! ## Vector math (gameUtils.ts: `distance`) -/

/-- `distance(pos1, pos2)` from `src/utils/gameUtils.ts`:
`Math.sqrt(dx*dx + dy*dy)` for the componentwise difference. -/
noncomputable def distance (pos1 pos2 : ℝ × ℝ) : ℝ :=
  Real.sqrt ((pos1.1 - pos2.1) * (pos1.1 - pos2.1) + (pos1.2 - pos2.2) * (pos1.2 - pos2.2))

/-! ## Physics engine (SpaceshipPhysicsEngine.ts) -/

/-- `ShipState` from `SpaceshipPhysicsEngine.ts`. -/
structure ShipState where
  x : ℝ
  y : ℝ
  vx : ℝ
  vy : ℝ
  rotation : ℝ

/-- `PhysicsInput` from `SpaceshipPhysicsEngine.ts`. -/
structure PhysicsInput where
  targetAngle : ℝ
  isThrusting : Bool

/-- `PHYSICS_CONSTANTS.THRUST_FORCE`. -/
noncomputable def THRUST_FORCE : ℝ := 1 / 100

/-- `PHYSICS_CONSTANTS.FRICTION`. -/
noncomputable def FRICTION : ℝ := 99 / 100

/-- `PHYSICS_CONSTANTS.MAX_VELOCITY`. -/
noncomputable def MAX_VELOCITY : ℝ := 1 / 2

/-- `PHYSICS_CONSTANTS.ROTATION_SPEED`. -/
noncomputable def ROTATION_SPEED : ℝ := 1 / 2

open Real in
/-- The delta-normalisation step inside `interpolateAngle`
(`SpaceshipPhysicsEngine.ts` lines 94-110): a single correction by `2π`
applied when the raw difference leaves `(-π, π)`. -/
noncomputable def normalizeDelta (delta : ℝ) : ℝ :=
  if delta > π then delta - 2 * π
  else if delta < -π then delta + 2 * π
  else delta

/-- `SpaceshipPhysicsEngine.interpolateAngle`. -/
noncomputable def interpolateAngle (current target factor : ℝ) : ℝ :=
  current + normalizeDelta (target - current) * factor

/-- `SpaceshipPhysicsEngine.updateShipState`: rotate → thrust → friction →
clamp → integrate.  `deltaTime` is accepted but unused, exactly as in the
source (fixed-step simulation). -/
noncomputable def updateShipState (ship : ShipState) (input : PhysicsInput)
    (_deltaTime : ℝ) : ShipState :=
  let rotation := interpolateAngle ship.rotation input.targetAngle ROTATION_SPEED
  let vx₁ := if input.isThrusting then ship.vx + Real.cos rotation * THRUST_FORCE else ship.vx
  let vy₁ := if input.isThrusting then ship.vy + Real.sin rotation * THRUST_FORCE else ship.vy
  let vx₂ := vx₁ * FRICTION
  let vy₂ := vy₁ * FRICTION
  let currentSpeed := Real.sqrt (vx₂ * vx₂ + vy₂ * vy₂)
  let scale := MAX_VELOCITY / currentSpeed
  let vx₃ := if currentSpeed > MAX_VELOCITY then vx₂ * scale else vx₂
  let vy₃ := if currentSpeed > MAX_VELOCITY then vy₂ * scale else vy₂
  { x := ship.x + vx₃, y := ship.y + vy₃, vx := vx₃, vy := vy₃, rotation := rotation }

/-- Speed of a ship state: the magnitude `sqrt(vx² + vy²)` of its velocity. -/
noncomputable def speed (s : ShipState) : ℝ :=
  Real.sqrt (s.vx * s.vx + s.vy * s.vy)

lemma speed_nonneg (s : ShipState) : 0 ≤ speed s := Real.sqrt_nonneg _

lemma sqrt_mul_self_add_mul_self_scale (a x y : ℝ) (ha : 0 ≤ a) :
    Real.sqrt ((a * x) * (a * x) + (a * y) * (a * y)) =
      a * Real.sqrt (x * x + y * y) := by
  have h : (a * x) * (a * x) + (a * y) * (a * y) = (a * a) * (x * x + y * y) := by ring
  rw [h, Real.sqrt_mul (mul_nonneg ha ha), Real.sqrt_mul_self ha]

/-- The velocity components of `updateShipState`, before clamping. -/
noncomputable def preClampVx (ship : ShipState) (input : PhysicsInput) : ℝ :=
  (if input.isThrusting then
      ship.vx + Real.cos (interpolateAngle ship.rotation input.targetAngle ROTATION_SPEED) *
        THRUST_FORCE
    else ship.vx) * FRICTION

/-- The y velocity component of `updateShipState`, before clamping. -/
noncomputable def preClampVy (ship : ShipState) (input : PhysicsInput) : ℝ :=
  (if input.isThrusting then
      ship.vy + Real.sin (interpolateAngle ship.rotation input.targetAngle ROTATION_SPEED) *
        THRUST_FORCE
    else ship.vy) * FRICTION

lemma updateShipState_vx (ship : ShipState) (input : PhysicsInput) (dt : ℝ) :
    (updateShipState ship input dt).vx =
      (if Real.sqrt (preClampVx ship input * preClampVx ship input +
          preClampVy ship input * preClampVy ship input) > MAX_VELOCITY then
        preClampVx ship input * (MAX_VELOCITY /
          Real.sqrt (preClampVx ship input * preClampVx ship input +
            preClampVy ship input * preClampVy ship input))
      else preClampVx ship input) := by
  simp only [updateShipState, preClampVx, preClampVy]

lemma updateShipState_vy (ship : ShipState) (input : PhysicsInput) (dt : ℝ) :
    (updateShipState ship input dt).vy =
      (if Real.sqrt (preClampVx ship input * preClampVx ship input +
          preClampVy ship input * preClampVy ship input) > MAX_VELOCITY then
        preClampVy ship input * (MAX_VELOCITY /
          Real.sqrt (preClampVx ship input * preClampVx ship input +
            preClampVy ship input * preClampVy ship input))
      else preClampVy ship input) := by
  simp only [updateShipState, preClampVx, preClampVy]

/-- After the clamp, the speed of the updated state is at most `MAX_VELOCITY`. -/
lemma speed_updateShipState_le (ship : ShipState) (input : PhysicsInput) (dt : ℝ) :
    speed (updateShipState ship input dt) ≤ MAX_VELOCITY := by
  have hmax : (0 : ℝ) < MAX_VELOCITY := by norm_num [MAX_VELOCITY]
  rw [speed, updateShipState_vx ship input dt, updateShipState_vy ship input dt]
  set ax := preClampVx ship input with hax
  set ay := preClampVy ship input with hay
  set cs := Real.sqrt (ax * ax + ay * ay) with hcs
  split_ifs with h
  · have hcspos : 0 < cs := lt_trans hmax h
    have hscale : 0 ≤ MAX_VELOCITY / cs := le_of_lt (div_pos hmax hcspos)
    have h1 : ax * (MAX_VELOCITY / cs) * (ax * (MAX_VELOCITY / cs)) +
        ay * (MAX_VELOCITY / cs) * (ay * (MAX_VELOCITY / cs)) =
        ((MAX_VELOCITY / cs) * ax) * ((MAX_VELOCITY / cs) * ax) +
        ((MAX_VELOCITY / cs) * ay) * ((MAX_VELOCITY / cs) * ay) := by ring
    rw [h1, sqrt_mul_self_add_mul_self_scale _ _ _ hscale, ← hcs,
      div_mul_cancel₀ _ (ne_of_gt hcspos)]
  · exact le_of_not_lt h

/-- The updated speed never exceeds the pre-clamp speed: the clamp either
leaves the velocity alone or scales it down to `MAX_VELOCITY`. -/
lemma speed_updateShipState_le_preSpeed (ship : ShipState) (input : PhysicsInput) (dt : ℝ) :
    speed (updateShipState ship input dt) ≤
      Real.sqrt (preClampVx ship input * preClampVx ship input +
        preClampVy ship input * preClampVy ship input) := by
  have hmax : (0 : ℝ) < MAX_VELOCITY := by norm_num [MAX_VELOCITY]
  rw [speed, updateShipState_vx ship input dt, updateShipState_vy ship input dt]
  set ax := preClampVx ship input with hax
  set ay := preClampVy ship input with hay
  set cs := Real.sqrt (ax * ax + ay * ay) with hcs
  split_ifs with h
  · have hcspos : 0 < cs := lt_trans hmax h
    have hscale : 0 ≤ MAX_VELOCITY / cs := le_of_lt (div_pos hmax hcspos)
    have h1 : ax * (MAX_VELOCITY / cs) * (ax * (MAX_VELOCITY / cs)) +
        ay * (MAX_VELOCITY / cs) * (ay * (MAX_VELOCITY / cs)) =
        ((MAX_VELOCITY / cs) * ax) * ((MAX_VELOCITY / cs) * ax) +
        ((MAX_VELOCITY / cs) * ay) * ((MAX_VELOCITY / cs) * ay) := by ring
    rw [h1, sqrt_mul_self_add_mul_self_scale _ _ _ hscale, ← hcs,
      div_mul_cancel₀ _ (ne_of_gt hcspos)]
    exact le_of_lt h
  · exact le_refl cs

/-- With `isThrusting = false`, the pre-clamp velocity is the old velocity
scaled by `FRICTION`, so the new speed is at most `FRICTION` times the old. -/
lemma speed_updateShipState_coast (ship : ShipState) (targetAngle : ℝ) (dt : ℝ) :
    speed (updateShipState ship ⟨targetAngle, false⟩ dt) ≤ FRICTION * speed ship := by
  have hF : (0 : ℝ) ≤ FRICTION := by norm_num [FRICTION]
  refine le_trans (speed_updateShipState_le_preSpeed ship ⟨targetAngle, false⟩ dt) ?_
  have hvx : preClampVx ship ⟨targetAngle, false⟩ = ship.vx * FRICTION := by
    simp [preClampVx]
  have hvy : preClampVy ship ⟨targetAngle, false⟩ = ship.vy * FRICTION := by
    simp [preClampVy]
  rw [hvx, hvy]
  have h1 : ship.vx * FRICTION * (ship.vx * FRICTION) +
      ship.vy * FRICTION * (ship.vy * FRICTION) =
      (FRICTION * ship.vx) * (FRICTION * ship.vx) +
      (FRICTION * ship.vy) * (FRICTION * ship.vy) := by ring
  rw [h1, sqrt_mul_self_add_mul_self_scale _ _ _ hF, speed]

/-- Repeated coasting: `coast s angles dt n` is the state after `n` calls of
`updateShipState` with `isThrusting = false` and the `n`-th target angle
(the per-call target angle is arbitrary). -/
noncomputable def coast (s : ShipState) (angles : ℕ → ℝ) (dt : ℝ) : ℕ → ShipState
  | 0 => s
  | n + 1 => updateShipState (coast s angles dt n) ⟨angles n, false⟩ dt

lemma coast_speed_le_pow (s : ShipState) (angles : ℕ → ℝ) (dt : ℝ) :
    ∀ n, speed (coast s angles dt n) ≤ FRICTION ^ n * speed s := by
  intro n
  induction n with
  | zero => simp [coast]
  | succ n ih =>
      have h1 := speed_updateShipState_coast (coast s angles dt n) (angles n) dt
      have hF : (0 : ℝ) ≤ FRICTION := by norm_num [FRICTION]
      calc speed (coast s angles dt (n + 1)) ≤ FRICTION * speed (coast s angles dt n) := h1
        _ ≤ FRICTION * (FRICTION ^ n * speed s) := by
            exact mul_le_mul_of_nonneg_left ih hF
        _ = FRICTION ^ (n + 1) * speed s := by ring

end StellarDrift

namespace StellarDrift

/-- **C3.** For every input ship state, every physics input and every
`deltaTime`, the state returned by a single `updateShipState` call has
velocity magnitude `sqrt(vx² + vy²)` at most the configured maximum
velocity `MAX_VELOCITY = 0.5`: the clamp runs after thrust and friction
and rescales the velocity vector, preserving its direction. -/
theorem updateShipState_speed_le_max (ship : ShipState) (input : PhysicsInput)
    (deltaTime : ℝ) :
    speed (updateShipState ship input deltaTime) ≤ MAX_VELOCITY :=
  speed_updateShipState_le ship input deltaTime

/-- **C5.** For every ship state and every sequence of `updateShipState`
calls with `isThrusting = false` (arbitrary target angle each call), the
speed `sqrt(vx² + vy²)` is non-increasing from each call to the next, and
the speed sequence converges to zero in the limit. -/
theorem coast_speed_monotone_and_tendsto_zero (s : ShipState) (angles : ℕ → ℝ) (dt : ℝ) :
    (∀ n, speed (coast s angles dt (n + 1)) ≤ speed (coast s angles dt n)) ∧
      Filter.Tendsto (fun n => speed (coast s angles dt n)) Filter.atTop (nhds 0) := by
  constructor
  · intro n
    have h1 := speed_updateShipState_coast (coast s angles dt n) (angles n) dt
    have hs := speed_nonneg (coast s angles dt n)
    have hF1 : FRICTION ≤ 1 := by norm_num [FRICTION]
    have h2 : FRICTION * speed (coast s angles dt n) ≤ speed (coast s angles dt n) := by
      nlinarith
    exact le_trans h1 h2
  · refine squeeze_zero (fun n => speed_nonneg _) (coast_speed_le_pow s angles dt) ?_
    have h0 : (0 : ℝ) ≤ FRICTION := by norm_num [FRICTION]
    have h1 : FRICTION < 1 := by norm_num [FRICTION]
    have := (tendsto_pow_atTop_nhds_zero_of_lt_one h0 h1).mul_const (speed s)
    simpa using this

section AngleInterpolation

open Real

/-- **C4 (counterexample).** The claim as stated is false: with current
rotation `4π` and target angle `0` (the ship already faces the target
direction modulo full turns), the single `±2π` correction in
`interpolateAngle` leaves the delta at `-2π`, outside `[-π, π]`, and
`updateShipState` turns the ship by a half turn to `3π` instead of not
turning at all — it does rotate the long way around. -/
theorem normalizeDelta_outside_range_at_4pi :
    normalizeDelta (0 - 4 * π) = -(2 * π) ∧
      normalizeDelta (0 - 4 * π) < -π ∧
      (updateShipState ⟨0, 0, 0, 0, 4 * π⟩ ⟨0, false⟩ 1).rotation = 3 * π := by
  have hπ : (0 : ℝ) < π := pi_pos
  have h1 : ¬ (0 - 4 * π > π) := by nlinarith
  have h2 : 0 - 4 * π < -π := by nlinarith
  have hδ : normalizeDelta (0 - 4 * π) = -(2 * π) := by
    rw [normalizeDelta, if_neg h1, if_pos h2]; ring
  refine ⟨hδ, by rw [hδ]; nlinarith, ?_⟩
  show interpolateAngle (4 * π) 0 ROTATION_SPEED = 3 * π
  rw [interpolateAngle, hδ, ROTATION_SPEED]; ring

/-- **C4 (amended).** Whenever the raw angular difference
`targetAngle - rotation` lies within `[-3π, 3π]` (as always holds when both
angles are taken in one `2π` window, e.g. the spec's 359°→1° example), the
normalisation in `interpolateAngle` lands in `[-π, π]`, is congruent to the
raw difference modulo `2π`, and has minimal absolute value among all such
representatives — so the interpolation of `updateShipState` turns the ship
the short way, never the long way around. -/
theorem interpolateAngle_shortest_path (ship : ShipState) (input : PhysicsInput)
    (dt : ℝ) (hlo : -(3 * π) ≤ input.targetAngle - ship.rotation)
    (hhi : input.targetAngle - ship.rotation ≤ 3 * π) :
    (-π ≤ normalizeDelta (input.targetAngle - ship.rotation) ∧
        normalizeDelta (input.targetAngle - ship.rotation) ≤ π) ∧
      (∃ k : ℤ, normalizeDelta (input.targetAngle - ship.rotation) =
        (input.targetAngle - ship.rotation) + 2 * π * k) ∧
      (∀ d' : ℝ, (∃ k : ℤ, d' = (input.targetAngle - ship.rotation) + 2 * π * k) →
        |normalizeDelta (input.targetAngle - ship.rotation)| ≤ |d'|) ∧
      (updateShipState ship input dt).rotation =
        ship.rotation + normalizeDelta (input.targetAngle - ship.rotation) * ROTATION_SPEED := by
  have hπ : (0 : ℝ) < π := pi_pos
  set d := input.targetAngle - ship.rotation with hd
  have hrange : -π ≤ normalizeDelta d ∧ normalizeDelta d ≤ π := by
    rw [normalizeDelta]
    split_ifs with h1 h2
    · constructor <;> nlinarith
    · constructor <;> nlinarith
    · constructor <;> nlinarith [not_lt.mp h1, not_lt.mp h2]
  have hcong : ∃ k : ℤ, normalizeDelta d = d + 2 * π * k := by
    rw [normalizeDelta]
    split_ifs with h1 h2
    · exact ⟨-1, by push_cast; ring⟩
    · exact ⟨1, by push_cast; ring⟩
    · exact ⟨0, by push_cast; ring⟩
  refine ⟨hrange, hcong, ?_, ?_⟩
  · rintro d' ⟨k', hk'⟩
    obtain ⟨k, hk⟩ := hcong
    by_cases hkk : k' = k
    · subst hkk
      rw [hk', ← hk]
    · have hne : k' - k ≠ 0 := sub_ne_zero.mpr hkk
      have habs : (1 : ℤ) ≤ |k' - k| := Int.one_le_abs hne
      have habsR : (1 : ℝ) ≤ |((k' - k : ℤ) : ℝ)| := by
        rw [← Int.cast_abs]; exact_mod_cast habs
      have hd' : d' = normalizeDelta d + 2 * π * ((k' - k : ℤ) : ℝ) := by
        rw [hk', hk]; push_cast; ring
      have hkey : 0 ≤ π * (|((k' - k : ℤ) : ℝ)| - 1) :=
        mul_nonneg hπ.le (by linarith)
      have h2π : 2 * π ≤ 2 * π * |((k' - k : ℤ) : ℝ)| := by nlinarith [hkey]
      have hdiff : d' + -(normalizeDelta d) = 2 * π * ((k' - k : ℤ) : ℝ) := by
        rw [hd']; ring
      have htriangle : |2 * π * ((k' - k : ℤ) : ℝ)| ≤ |d'| + |normalizeDelta d| := by
        have h := abs_add d' (-(normalizeDelta d))
        rw [hdiff, abs_neg] at h
        exact h
      have hmul : |2 * π * ((k' - k : ℤ) : ℝ)| = 2 * π * |((k' - k : ℤ) : ℝ)| := by
        rw [abs_mul]
        congr 1
        rw [abs_of_pos (by positivity)]
      have hδ : |normalizeDelta d| ≤ π := abs_le.mpr ⟨hrange.1, hrange.2⟩
      rw [hmul] at htriangle
      linarith
  · show interpolateAngle ship.rotation input.targetAngle ROTATION_SPEED =
      ship.rotation + normalizeDelta d * ROTATION_SPEED
    rw [interpolateAngle, hd]

/-- Witness for the amended C4 theorem, at the spec's own example: current
rotation 359° (`359π/180`), target 1° (`π/180`).  The raw difference
`-358π/180` is within `[-3π, 3π]`, and the normalised delta is in
`[-π, π]`. -/
theorem interpolateAngle_shortest_path_witness :
    (-(3 * π) ≤ (π / 180 : ℝ) - 359 * π / 180 ∧ (π / 180 : ℝ) - 359 * π / 180 ≤ 3 * π) ∧
      (-π ≤ normalizeDelta ((π / 180 : ℝ) - 359 * π / 180) ∧
        normalizeDelta ((π / 180 : ℝ) - 359 * π / 180) ≤ π) := by
  have hπ : (0 : ℝ) < π := pi_pos
  have hlo : -(3 * π) ≤ (π / 180 : ℝ) - 359 * π / 180 := by nlinarith
  have hhi : (π / 180 : ℝ) - 359 * π / 180 ≤ 3 * π := by nlinarith
  have h := interpolateAngle_shortest_path ⟨0, 0, 0, 0, 359 * π / 180⟩
    ⟨π / 180, false⟩ 1 (by simpa using hlo) (by simpa using hhi)
  refine ⟨⟨hlo, hhi⟩, ?_⟩
  have := h.1
  simpa using this

end AngleInterpolation

/-! ## Galaxy generator (gameUtils.ts: `generateGalaxy`)

The generator is embedded as a graph pipeline over system ids `Fin m`
(`m = starNames.length` systems, created in order; the starting system is
index `0`, the first `Object.keys` entry).  The `Math.random()` draws of
the edge pass are oracle parameters, and star positions are arbitrary
points, so every run of `generateGalaxy` is an instance of the model. -/

/-- The `connections` arrays: system id ↦ list of connected ids. -/
def Conns (m : ℕ) := Fin m → List (Fin m)

/-- The random data consumed by one `generateGalaxy` run: the procedurally
placed system positions, the per-ordered-pair `Math.random() < 0.4` edge
draw, and the `Math.random() < 0.1` damaged-jump-gate draw. -/
structure GenParams (m : ℕ) where
  pos : Fin m → ℝ × ℝ
  rand04 : Fin m → Fin m → Bool
  rand01 : Fin m → Fin m → Bool

/-- `if (!a.connections.includes(b.id)) a.connections.push(b.id)`. -/
def pushConn {m : ℕ} (conns : Conns m) (i j : Fin m) : Conns m :=
  if j ∈ conns i then conns else Function.update conns i (conns i ++ [j])

/-- The body of the doubly nested `systemValues.forEach` edge loop for one
ordered pair `(i, j)`: skip identical systems; for nearby pairs passing the
0.4 draw, either withhold the edge behind a damaged jump gate (0.1 draw) or
add the connection in both directions. -/
noncomputable def edgePassPair {m : ℕ} (P : GenParams m) (conns : Conns m)
    (i j : Fin m) : Conns m :=
  if i = j then conns
  else if distance (P.pos i) (P.pos j) < 250 ∧ P.rand04 i j = true then
    if P.rand01 i j = true then conns
    else pushConn (pushConn conns i j) j i
  else conns

/-- The full random edge pass: both `forEach` loops run over the systems in
creation order, starting from empty `connections` arrays. -/
noncomputable def edgePass {m : ℕ} (P : GenParams m) : Conns m :=
  (List.finRange m).foldl
    (fun conns i =>
      (List.finRange m).foldl (fun conns j => edgePassPair P conns i j) conns)
    (fun _ => [])

/-- One step of the BFS inner loop: walking `current.connections`, collect
(in order) the ids not yet visited; each is added to `visited` and the
queue.  `bfsNew conns visited c` is the list of ids newly discovered while
popping `c`. -/
def bfsNew {m : ℕ} (conns : Conns m) (visited : List (Fin m)) (c : Fin m) :
    List (Fin m) :=
  (conns c).foldl (fun acc j => if j ∈ visited ++ acc then acc else acc ++ [j]) []

lemma discoverFold_spec {m : ℕ} (visited : List (Fin m)) (l : List (Fin m)) :
    ∀ acc : List (Fin m), (∀ x ∈ acc, x ∉ visited) → acc.Nodup →
      (∀ x ∈ l.foldl (fun acc j => if j ∈ visited ++ acc then acc else acc ++ [j]) acc,
        x ∉ visited ∧ (x ∈ acc ∨ x ∈ l)) ∧
      (l.foldl (fun acc j => if j ∈ visited ++ acc then acc else acc ++ [j]) acc).Nodup := by
  induction l with
  | nil =>
      intro acc h1 h2
      exact ⟨fun x hx => ⟨h1 x hx, Or.inl hx⟩, h2⟩
  | cons j rest ih =>
      intro acc h1 h2
      simp only [List.foldl_cons]
      by_cases hj : j ∈ visited ++ acc
      · rw [if_pos hj]
        obtain ⟨ha, hb⟩ := ih acc h1 h2
        refine ⟨fun x hx => ⟨(ha x hx).1, ?_⟩, hb⟩
        exact (ha x hx).2.imp id (List.mem_cons_of_mem j)
      · rw [if_neg hj]
        have hjv : j ∉ visited := fun h => hj (List.mem_append.mpr (Or.inl h))
        have hja : j ∉ acc := fun h => hj (List.mem_append.mpr (Or.inr h))
        have h1' : ∀ x ∈ acc ++ [j], x ∉ visited := by
          intro x hx
          rcases List.mem_append.mp hx with h | h
          · exact h1 x h
          · simp only [List.mem_singleton] at h
            subst h
            exact hjv
        have h2' : (acc ++ [j]).Nodup := by
          simp [List.nodup_append, h2, hja]
        obtain ⟨ha, hb⟩ := ih (acc ++ [j]) h1' h2'
        refine ⟨fun x hx => ⟨(ha x hx).1, ?_⟩, hb⟩
        rcases (ha x hx).2 with h | h
        · rcases List.mem_append.mp h with h | h
          · exact Or.inl h
          · simp only [List.mem_singleton] at h
            subst h
            exact Or.inr (List.mem_cons_self _ _)
        · exact Or.inr (List.mem_cons_of_mem j h)

lemma bfsNew_spec {m : ℕ} (conns : Conns m) (visited : List (Fin m)) (c : Fin m) :
    (∀ x ∈ bfsNew conns visited c, x ∉ visited ∧ x ∈ conns c) ∧
      (bfsNew conns visited c).Nodup := by
  obtain ⟨h1, h2⟩ := discoverFold_spec visited (conns c) [] (by simp) List.nodup_nil
  refine ⟨fun x hx => ⟨(h1 x hx).1, ?_⟩, h2⟩
  rcases (h1 x hx).2 with h | h
  · exact absurd h (List.not_mem_nil x)
  · exact h

/-- Number of systems not yet in `visited` — the BFS termination measure. -/
def unvisitedCount (m : ℕ) (visited : List (Fin m)) : ℕ :=
  ((List.finRange m).filter (fun x => decide (x ∉ visited))).length

lemma unvisitedCount_append_singleton {m : ℕ} (visited : List (Fin m)) (a : Fin m)
    (ha : a ∉ visited) :
    unvisitedCount m (visited ++ [a]) + 1 = unvisitedCount m visited := by
  unfold unvisitedCount
  have hpred : ∀ x : Fin m,
      (decide (x ∉ visited ++ [a])) = ((decide (x ≠ a)) && (decide (x ∉ visited))) := by
    intro x
    by_cases h1 : x ∈ visited <;> by_cases h2 : x = a <;>
      simp [h1, h2, List.mem_append]
  have hfilter : (List.finRange m).filter (fun x => decide (x ∉ visited ++ [a])) =
      ((List.finRange m).filter (fun x => decide (x ∉ visited))).filter
        (fun x => decide (x ≠ a)) := by
    rw [List.filter_filter]
    apply List.filter_congr
    intro x _
    exact hpred x
  rw [hfilter]
  set S := (List.finRange m).filter (fun x => decide (x ∉ visited)) with hS
  have hSnodup : S.Nodup := (List.nodup_finRange m).filter _
  have haS : a ∈ S := by
    rw [hS, List.mem_filter]
    exact ⟨List.mem_finRange a, by simpa using ha⟩
  have herase : S.erase a = S.filter (fun x => decide (x ≠ a)) := by
    rw [List.Nodup.erase_eq_filter hSnodup]
    apply List.filter_congr
    intro x _
    by_cases h : x = a <;> simp [h]
  rw [← herase, List.length_erase_of_mem haS]
  have : 0 < S.length := List.length_pos_of_mem haS
  omega

lemma unvisitedCount_append {m : ℕ} (fresh : List (Fin m)) :
    ∀ visited : List (Fin m), (∀ x ∈ fresh, x ∉ visited) → fresh.Nodup →
      unvisitedCount m (visited ++ fresh) + fresh.length = unvisitedCount m visited := by
  induction fresh with
  | nil => intro visited _ _; simp
  | cons a rest ih =>
      intro visited hdisj hnd
      have ha : a ∉ visited := hdisj a (List.mem_cons_self a rest)
      have hstep := unvisitedCount_append_singleton visited a ha
      have hrest : ∀ x ∈ rest, x ∉ visited ++ [a] := by
        intro x hx
        intro hmem
        rcases List.mem_append.mp hmem with h | h
        · exact hdisj x (List.mem_cons_of_mem a hx) h
        · simp only [List.mem_singleton] at h
          subst h
          exact (List.nodup_cons.mp hnd).1 hx
      have hih := ih (visited ++ [a]) hrest (List.nodup_cons.mp hnd).2
      have hassoc : visited ++ a :: rest = (visited ++ [a]) ++ rest := by simp
      rw [hassoc]
      simp only [List.length_cons]
      omega

/-- The BFS `while (queue.length > 0)` loop from `generateGalaxy`: pop the
head, push every not-yet-visited connection onto `visited` and the queue.
(The source's `systems[connectionId]` existence check always succeeds here
because every stored connection is a system id.)  Returns the final
`visited` set as a list in insertion order. -/
def bfsAux {m : ℕ} (conns : Conns m) : List (Fin m) → List (Fin m) → List (Fin m)
  | [], visited => visited
  | c :: rest, visited =>
      bfsAux conns (rest ++ bfsNew conns visited c) (visited ++ bfsNew conns visited c)
termination_by queue visited => unvisitedCount m visited + queue.length
decreasing_by
  have hspec := bfsNew_spec conns visited c
  have hcount := unvisitedCount_append (bfsNew conns visited c) visited
    (fun x hx => (hspec.1 x hx).1) hspec.2
  simp only [List.length_append, List.length_cons]
  omega

/-- Undirected adjacency via the `connections` arrays. -/
def Adj {m : ℕ} (conns : Conns m) (a b : Fin m) : Prop :=
  b ∈ conns a ∨ a ∈ conns b

/-- Reachability by following the undirected `connections` edges. -/
def Reach {m : ℕ} (conns : Conns m) (a b : Fin m) : Prop :=
  Relation.ReflTransGen (Adj conns) a b

lemma bfsAux_sound {m : ℕ} (conns : Conns m) (start : Fin m) :
    ∀ queue visited : List (Fin m), (∀ c ∈ queue, Reach conns start c) →
      (∀ x ∈ visited, Reach conns start x) →
      ∀ x ∈ bfsAux conns queue visited, Reach conns start x := by
  intro queue visited
  induction queue, visited using bfsAux.induct conns with
  | case1 visited =>
      intro _ hv
      rw [bfsAux]
      exact hv
  | case2 c rest visited ih =>
      intro hq hv
      rw [bfsAux]
      have hspec := bfsNew_spec conns visited c
      have hfresh : ∀ x ∈ bfsNew conns visited c, Reach conns start x := by
        intro x hx
        have hc : Reach conns start c := hq c (List.mem_cons_self c rest)
        exact Relation.ReflTransGen.tail hc (Or.inl (hspec.1 x hx).2)
      apply ih
      · intro x hx
        rcases List.mem_append.mp hx with h | h
        · exact hq x (List.mem_cons_of_mem c h)
        · exact hfresh x h
      · intro x hx
        rcases List.mem_append.mp hx with h | h
        · exact hv x h
        · exact hfresh x h

lemma bfsAux_visited_subset {m : ℕ} (conns : Conns m) :
    ∀ queue visited : List (Fin m), ∀ x ∈ visited, x ∈ bfsAux conns queue visited := by
  intro queue visited
  induction queue, visited using bfsAux.induct conns with
  | case1 visited =>
      intro x hx
      rw [bfsAux]
      exact hx
  | case2 c rest visited ih =>
      intro x hx
      rw [bfsAux]
      exact ih x (List.mem_append.mpr (Or.inl hx))

/-- The greedy "find closest reachable system" scan of the connectivity
repair pass: `closest` starts at the starting system, `closestDist` at
`Infinity` (modelled as `none`), and every reachable id whose distance to
the unreached system beats the current best replaces it. -/
noncomputable def closestReachable {m : ℕ} (sysPos : ℝ × ℝ) (pos : Fin m → ℝ × ℝ)
    (start : Fin m) (visited : List (Fin m)) : Fin m :=
  (visited.foldl
    (fun acc r =>
      match acc.2 with
      | none => (r, some (distance sysPos (pos r)))
      | some cd =>
          if distance sysPos (pos r) < cd then (r, some (distance sysPos (pos r))) else acc)
    (start, none)).1

lemma closestReachable_mem {m : ℕ} (sysPos : ℝ × ℝ) (pos : Fin m → ℝ × ℝ)
    (start : Fin m) (visited : List (Fin m)) :
    closestReachable sysPos pos start visited = start ∨
      closestReachable sysPos pos start visited ∈ visited := by
  unfold closestReachable
  have main : ∀ l : List (Fin m), ∀ acc : Fin m × Option ℝ,
      (acc.1 = start ∨ acc.1 ∈ visited) → (∀ x ∈ l, x ∈ visited) →
      ((l.foldl
        (fun acc r =>
          match acc.2 with
          | none => (r, some (distance sysPos (pos r)))
          | some cd =>
              if distance sysPos (pos r) < cd then (r, some (distance sysPos (pos r)))
              else acc)
        acc).1 = start ∨
      (l.foldl
        (fun acc r =>
          match acc.2 with
          | none => (r, some (distance sysPos (pos r)))
          | some cd =>
              if distance sysPos (pos r) < cd then (r, some (distance sysPos (pos r)))
              else acc)
        acc).1 ∈ visited) := by
    intro l
    induction l with
    | nil => intro acc hacc _; exact hacc
    | cons r rest ih =>
        intro acc hacc hl
        simp only [List.foldl_cons]
        apply ih
        · rcases hmatch : acc.2 with _ | cd
          · exact Or.inr (hl r (List.mem_cons_self r rest))
          · by_cases hlt : distance sysPos (pos r) < cd
            · simp only [hmatch, if_pos hlt]
              exact Or.inr (hl r (List.mem_cons_self r rest))
            · simp only [hmatch, if_neg hlt]
              exact hacc
        · intro x hx
          exact hl x (List.mem_cons_of_mem r hx)
  exact main visited (start, none) (Or.inl rfl) (fun x hx => hx)

/-- One step of the repair pass over a system id: already-reached systems
are skipped; an unreached system is connected (in both directions) to the
closest already-reached system and added to the reached set. -/
noncomputable def repairStep {m : ℕ} (pos : Fin m → ℝ × ℝ) (start : Fin m)
    (st : Conns m × List (Fin m)) (sysId : Fin m) : Conns m × List (Fin m) :=
  if sysId ∈ st.2 then st
  else
    let closest := closestReachable (pos sysId) pos start st.2
    let conns₁ := Function.update st.1 sysId (st.1 sysId ++ [closest])
    let conns₂ := Function.update conns₁ closest (conns₁ closest ++ [sysId])
    (conns₂, st.2 ++ [sysId])

/-- The `Object.keys(systems).forEach` repair loop. -/
noncomputable def repairPass {m : ℕ} (pos : Fin m → ℝ × ℝ) (start : Fin m)
    (conns : Conns m) (visited : List (Fin m)) : Conns m × List (Fin m) :=
  (List.finRange m).foldl (repairStep pos start) (conns, visited)

/-- Pointwise containment of connection maps. -/
def connsLE {m : ℕ} (c c' : Conns m) : Prop :=
  ∀ a b, b ∈ c a → b ∈ c' a

lemma connsLE_refl {m : ℕ} (c : Conns m) : connsLE c c := fun _ _ h => h

lemma connsLE_update_append {m : ℕ} (c : Conns m) (i : Fin m) (l : List (Fin m)) :
    connsLE c (Function.update c i (c i ++ l)) := by
  intro a b hb
  by_cases hai : a = i
  · subst hai
    rw [Function.update_same]
    exact List.mem_append.mpr (Or.inl hb)
  · rw [Function.update_noteq hai]
    exact hb

lemma connsLE_trans {m : ℕ} {c₁ c₂ c₃ : Conns m} (h1 : connsLE c₁ c₂)
    (h2 : connsLE c₂ c₃) : connsLE c₁ c₃ :=
  fun a b hb => h2 a b (h1 a b hb)

lemma reach_mono {m : ℕ} {c c' : Conns m} (h : connsLE c c') {a b : Fin m}
    (hr : Reach c a b) : Reach c' a b :=
  Relation.ReflTransGen.mono (fun x y hxy => hxy.imp (h x y) (h y x)) hr

lemma repairFold_inv {m : ℕ} (pos : Fin m → ℝ × ℝ) (start : Fin m) :
    ∀ l : List (Fin m), ∀ conns : Conns m, ∀ visited : List (Fin m),
      start ∈ visited → (∀ x ∈ visited, Reach conns start x) →
      (start ∈ (l.foldl (repairStep pos start) (conns, visited)).2 ∧
        (∀ x ∈ (l.foldl (repairStep pos start) (conns, visited)).2,
          Reach (l.foldl (repairStep pos start) (conns, visited)).1 start x) ∧
        (∀ x ∈ l, x ∈ (l.foldl (repairStep pos start) (conns, visited)).2)) := by
  intro l
  induction l with
  | nil =>
      intro conns visited hstart hreach
      exact ⟨hstart, hreach, by simp⟩
  | cons sysId rest ih =>
      intro conns visited hstart hreach
      simp only [List.foldl_cons]
      by_cases hmem : sysId ∈ visited
      · have hstep : repairStep pos start (conns, visited) sysId = (conns, visited) := by
          unfold repairStep
          rw [if_pos hmem]
        rw [hstep]
        obtain ⟨h1, h2, h3⟩ := ih conns visited hstart hreach
        refine ⟨h1, h2, ?_⟩
        intro x hx
        rcases List.mem_cons.mp hx with h | h
        · subst h
          -- sysId ∈ visited, and visited is preserved by every repair step
          have hsub : ∀ l' : List (Fin m), ∀ st : Conns m × List (Fin m), ∀ y ∈ st.2,
              y ∈ (l'.foldl (repairStep pos start) st).2 := by
            intro l'
            induction l' with
            | nil => intro st y hy; exact hy
            | cons z rest' ih' =>
                intro st y hy
                simp only [List.foldl_cons]
                apply ih'
                unfold repairStep
                by_cases hz : z ∈ st.2
                · rw [if_pos hz]; exact hy
                · rw [if_neg hz]
                  exact List.mem_append.mpr (Or.inl hy)
          exact hsub rest (conns, visited) x hmem
        · exact h3 x h
      · set closest := closestReachable (pos sysId) pos start visited with hclosest
        have hclosest_vis : closest ∈ visited := by
          rcases closestReachable_mem (pos sysId) pos start visited with h | h
          · rw [hclosest, h]; exact hstart
          · rw [hclosest]; exact h
        have hne : sysId ≠ closest := fun h => hmem (h ▸ hclosest_vis)
        set conns₁ := Function.update conns sysId (conns sysId ++ [closest]) with hc1
        set conns₂ := Function.update conns₁ closest (conns₁ closest ++ [sysId]) with hc2
        have hstep : repairStep pos start (conns, visited) sysId =
            (conns₂, visited ++ [sysId]) := by
          unfold repairStep
          rw [if_neg hmem]
        rw [hstep]
        have hle : connsLE conns conns₂ :=
          connsLE_trans (connsLE_update_append conns sysId [closest])
            (connsLE_update_append conns₁ closest [sysId])
        have hadj : sysId ∈ conns₂ closest := by
          rw [hc2, Function.update_same]
          exact List.mem_append.mpr (Or.inr (List.mem_singleton.mpr rfl))
        have hreach' : ∀ x ∈ visited ++ [sysId], Reach conns₂ start x := by
          intro x hx
          rcases List.mem_append.mp hx with h | h
          · exact reach_mono hle (hreach x h)
          · simp only [List.mem_singleton] at h
            subst h
            have hc : Reach conns₂ start closest :=
              reach_mono hle (hreach closest hclosest_vis)
            exact Relation.ReflTransGen.tail hc (Or.inl hadj)
        have hstart' : start ∈ visited ++ [sysId] := List.mem_append.mpr (Or.inl hstart)
        obtain ⟨h1, h2, h3⟩ := ih conns₂ (visited ++ [sysId]) hstart' hreach'
        refine ⟨h1, h2, ?_⟩
        intro x hx
        rcases List.mem_cons.mp hx with h | h
        · rw [h]
          have hsub : ∀ l' : List (Fin m), ∀ st : Conns m × List (Fin m), ∀ y ∈ st.2,
              y ∈ (l'.foldl (repairStep pos start) st).2 := by
            intro l'
            induction l' with
            | nil => intro st y hy; exact hy
            | cons z rest' ih' =>
                intro st y hy
                simp only [List.foldl_cons]
                apply ih'
                unfold repairStep
                by_cases hz : z ∈ st.2
                · rw [if_pos hz]; exact hy
                · rw [if_neg hz]
                  exact List.mem_append.mpr (Or.inl hy)
          exact hsub rest (conns₂, visited ++ [sysId]) sysId
            (List.mem_append.mpr (Or.inr (List.mem_singleton.mpr rfl)))
        · exact h3 x h

/-- `generateGalaxy`'s connection structure: the random edge pass, the BFS
reachability scan from the first system (id `0`), and the repair pass that
connects every unreached system to its closest reached system.  Only the
connection-graph part of generation is modelled — stations, asteroids,
markets and missions do not influence `connections`. -/
noncomputable def generateGalaxyConns (n : ℕ) (P : GenParams (n + 1)) : Conns (n + 1) :=
  let conns := edgePass P
  let visited := bfsAux conns [0] [0]
  (repairPass P.pos 0 conns visited).1

end StellarDrift

namespace StellarDrift

/-- **C1.** For every galaxy produced by `generateGalaxy` — i.e. for every
number of systems, every assignment of positions, and every outcome of the
random edge draws (including damaged-jump-gate withholding) — every star
system is reachable from the first (starting) system by following the
undirected `connections` edges: the breadth-first repair pass establishes
full connectivity as a postcondition. -/
theorem generateGalaxy_connected (n : ℕ) (P : GenParams (n + 1)) (i : Fin (n + 1)) :
    Reach (generateGalaxyConns n P) 0 i := by
  unfold generateGalaxyConns
  set conns := edgePass P with hconns
  set visited := bfsAux conns [0] [0] with hvisited
  have hstart : (0 : Fin (n + 1)) ∈ visited := by
    rw [hvisited]
    exact bfsAux_visited_subset conns [0] [0] 0 (List.mem_singleton.mpr rfl)
  have hsound : ∀ x ∈ visited, Reach conns 0 x := by
    rw [hvisited]
    exact bfsAux_sound conns 0 [0] [0]
      (fun c hc => by
        simp only [List.mem_singleton] at hc
        subst hc
        exact Relation.ReflTransGen.refl)
      (fun x hx => by
        simp only [List.mem_singleton] at hx
        subst hx
        exact Relation.ReflTransGen.refl)
  obtain ⟨_, h2, h3⟩ := repairFold_inv P.pos 0 (List.finRange (n + 1)) conns visited
    hstart hsound
  exact h2 i (h3 i (List.mem_finRange i))

end StellarDrift

namespace StellarDrift

/-! ## Game data model (types/game.ts, data/gameData.ts)

String identifiers of the source are embedded as natural numbers. -/

/-- A ship module's `type` field (`'weapon' | 'defense' | 'utility' | 'special'`). -/
inductive ModuleType where
  | weapon
  | defense
  | utility
  | special
deriving DecidableEq

/-- A module's `stats` object.  In the source, absent stats are `undefined`
and `0`-valued stats are falsy, so `if (module.stats.x) acc += module.stats.x`
adds exactly the value below with missing fields read as `0`. -/
structure ModuleStats where
  damage : ℝ := 0
  energyCost : ℝ := 0
  projectileSpeed : ℝ := 0
  shieldBonus : ℝ := 0
  cargoBonus : ℝ := 0
  energyBonus : ℝ := 0
  healthBonus : ℝ := 0

/-- A ship module (`SHIP_MODULES` entry). -/
structure Module where
  id : ℕ
  type : ModuleType
  stats : ModuleStats

/-- `SHIP_MODULES['basic-laser']`. -/
noncomputable def basicLaser : Module :=
  { id := 0, type := .weapon, stats := { damage := 0, energyCost := 0, projectileSpeed := 0 } }

/-- `SHIP_MODULES['pulse-cannon']`. -/
noncomputable def pulseCannon : Module :=
  { id := 1, type := .weapon, stats := { damage := 10, energyCost := -2, projectileSpeed := 50 } }

/-- `SHIP_MODULES['missile-launcher']`. -/
noncomputable def missileLauncher : Module :=
  { id := 2, type := .weapon, stats := { damage := 25, energyCost := 5, projectileSpeed := -50 } }

/-- `SHIP_MODULES['shield-booster']`. -/
noncomputable def shieldBooster : Module :=
  { id := 3, type := .defense, stats := { shieldBonus := 25 } }

/-- A `CargoItem` (`{id, name, quantity, basePrice}`); the display name and
base price play no role in the verified operations and are omitted. -/
structure CargoItem where
  id : ℕ
  quantity : ℝ

/-- The `Ship` fields consumed by the verified operations. -/
structure Ship where
  position : ℝ × ℝ
  velocity : ℝ × ℝ
  rotation : ℝ
  health : ℝ
  maxHealth : ℝ
  shields : ℝ
  maxShields : ℝ
  energy : ℝ
  maxEnergy : ℝ
  fuel : ℝ
  maxFuel : ℝ
  cargo : List CargoItem
  maxCargo : ℝ
  modules : List Module

/-- `ship.cargo.reduce((sum, cargo) => sum + cargo.quantity, 0)`. -/
noncomputable def cargoTotal (ship : Ship) : ℝ :=
  ship.cargo.foldl (fun sum c => sum + c.quantity) 0

/-- In-place `existingItem.quantity += item.quantity` on the first cargo
entry whose id matches. -/
noncomputable def bumpFirst : List CargoItem → CargoItem → List CargoItem
  | [], _ => []
  | c :: rest, item =>
      if c.id = item.id then { c with quantity := c.quantity + item.quantity } :: rest
      else c :: bumpFirst rest item

/-- `addCargo(ship, item)` from `gameUtils.ts`: reject if the summed cargo
quantity plus the new quantity would exceed `maxCargo`; otherwise stack
onto the existing entry with the same id, or push a copy. -/
noncomputable def addCargo (ship : Ship) (item : CargoItem) : Bool × Ship :=
  if cargoTotal ship + item.quantity > ship.maxCargo then (false, ship)
  else
    match ship.cargo.find? (fun c => decide (c.id = item.id)) with
    | some _ => (true, { ship with cargo := bumpFirst ship.cargo item })
    | none => (true, { ship with cargo := ship.cargo ++ [item] })

/-- In-place `item.quantity -= quantity` on the first matching cargo entry. -/
noncomputable def subFirst : List CargoItem → ℕ → ℝ → List CargoItem
  | [], _, _ => []
  | c :: rest, itemId, q =>
      if c.id = itemId then { c with quantity := c.quantity - q } :: rest
      else c :: subFirst rest itemId q

/-- `removeCargo(ship, itemId, quantity)` from `gameUtils.ts`: fail when the
item is missing or short; otherwise subtract, and drop all entries with the
id when the remaining quantity is `≤ 0`. -/
noncomputable def removeCargo (ship : Ship) (itemId : ℕ) (quantity : ℝ) : Bool × Ship :=
  match ship.cargo.find? (fun c => decide (c.id = itemId)) with
  | none => (false, ship)
  | some item =>
      if item.quantity < quantity then (false, ship)
      else if item.quantity - quantity ≤ 0 then
        (true, { ship with
          cargo := (subFirst ship.cargo itemId quantity).filter
            (fun c => decide (¬ c.id = itemId)) })
      else (true, { ship with cargo := subFirst ship.cargo itemId quantity })

/-- `applyCollisionDamage(ship, damage)` from `gameUtils.ts`: shields absorb
first, the remainder hits health, health is clamped at `0`. -/
noncomputable def applyCollisionDamage (ship : Ship) (damage : ℝ) : Ship :=
  let shieldDamage := if ship.shields > 0 then min damage ship.shields else 0
  let ship₁ := if ship.shields > 0 then { ship with shields := ship.shields - shieldDamage }
    else ship
  let damage₁ := damage - shieldDamage
  if damage₁ > 0 then
    let ship₂ := { ship₁ with health := ship₁.health - damage₁ }
    if ship₂.health ≤ 0 then { ship₂ with health := 0 } else ship₂
  else ship₁

/-! ### Cargo bookkeeping lemmas -/

/-- Summed quantity of a cargo list. -/
noncomputable def qsum (l : List CargoItem) : ℝ := (l.map (fun c => c.quantity)).sum

lemma foldl_add_qsum : ∀ (l : List CargoItem) (a : ℝ),
    l.foldl (fun sum c => sum + c.quantity) a = a + qsum l := by
  intro l
  induction l with
  | nil => intro a; simp [qsum]
  | cons c rest ih =>
      intro a
      simp only [List.foldl_cons, ih, qsum, List.map_cons, List.sum_cons]
      ring

lemma cargoTotal_eq_qsum (ship : Ship) : cargoTotal ship = qsum ship.cargo := by
  rw [cargoTotal, foldl_add_qsum]
  ring

lemma qsum_bumpFirst : ∀ (l : List CargoItem) (item : CargoItem),
    (l.find? (fun c => decide (c.id = item.id))).isSome →
    qsum (bumpFirst l item) = qsum l + item.quantity := by
  intro l item
  induction l with
  | nil => intro h; simp [List.find?] at h
  | cons c rest ih =>
      intro h
      by_cases hc : c.id = item.id
      · rw [bumpFirst, if_pos hc]
        simp only [qsum, List.map_cons, List.sum_cons]
        ring
      · rw [bumpFirst, if_neg hc]
        rw [List.find?_cons_of_neg _ (by simpa using hc)] at h
        simp only [qsum, List.map_cons, List.sum_cons] at *
        rw [ih h]
        ring

lemma remove_lists : ∀ (l : List CargoItem) (itemId : ℕ) (q : ℝ) (c₀ : CargoItem),
    (l.map (fun c => c.id)).Nodup →
    l.find? (fun c => decide (c.id = itemId)) = some c₀ →
    qsum (subFirst l itemId q) = qsum l - q ∧
      qsum ((subFirst l itemId q).filter (fun c => decide (¬ c.id = itemId))) =
        qsum l - c₀.quantity := by
  intro l itemId q
  induction l with
  | nil => intro c₀ _ h; simp [List.find?] at h
  | cons c rest ih =>
      intro c₀ hnd hfind
      by_cases hc : c.id = itemId
      · rw [List.find?_cons_of_pos _ (by simpa using hc)] at hfind
        have hc₀ : c₀ = c := by
          injection hfind with h
          exact h.symm
        rw [hc₀]
        have hrest : ∀ e ∈ rest, e.id ≠ itemId := by
          intro e he heq
          have : c.id ∈ rest.map (fun c => c.id) := by
            exact List.mem_map.mpr ⟨e, he, heq.trans hc.symm⟩
          exact (List.nodup_cons.mp (by simpa using hnd)).1 this
        constructor
        · rw [subFirst, if_pos hc]
          simp only [qsum, List.map_cons, List.sum_cons]
          ring
        · rw [subFirst, if_pos hc]
          have hhead : (decide (¬ ({ c with quantity := c.quantity - q } : CargoItem).id
              = itemId)) = false := by simp [hc]
          rw [List.filter_cons, hhead]
          have hkeep : rest.filter (fun c => decide (¬ c.id = itemId)) = rest := by
            rw [List.filter_eq_self]
            intro e he
            simpa using hrest e he
          rw [if_neg (by simp)]
          rw [hkeep]
          simp only [qsum, List.map_cons, List.sum_cons]
          ring
      · rw [List.find?_cons_of_neg _ (by simpa using hc)] at hfind
        have hnd' : (rest.map (fun c => c.id)).Nodup :=
          (List.nodup_cons.mp (by simpa using hnd)).2
        obtain ⟨h1, h2⟩ := ih c₀ hnd' hfind
        constructor
        · rw [subFirst, if_neg hc]
          simp only [qsum, List.map_cons, List.sum_cons] at *
          rw [h1]
          ring
        · rw [subFirst, if_neg hc]
          rw [List.filter_cons, if_pos (by simpa using hc)]
          simp only [qsum, List.map_cons, List.sum_cons] at *
          rw [h2]
          ring

/-- The cargo list has pairwise distinct item ids (maintained by
`addCargo`/`removeCargo`, and true of the empty starting cargo). -/
def idsNodup (ship : Ship) : Prop := (ship.cargo.map (fun c => c.id)).Nodup

lemma bumpFirst_ids : ∀ (l : List CargoItem) (item : CargoItem),
    (bumpFirst l item).map (fun c => c.id) = l.map (fun c => c.id) := by
  intro l item
  induction l with
  | nil => rfl
  | cons c rest ih =>
      by_cases hc : c.id = item.id
      · rw [bumpFirst, if_pos hc]
        simp
      · rw [bumpFirst, if_neg hc]
        simp only [List.map_cons, ih]

lemma subFirst_ids : ∀ (l : List CargoItem) (itemId : ℕ) (q : ℝ),
    (subFirst l itemId q).map (fun c => c.id) = l.map (fun c => c.id) := by
  intro l itemId q
  induction l with
  | nil => rfl
  | cons c rest ih =>
      by_cases hc : c.id = itemId
      · rw [subFirst, if_pos hc]
        simp
      · rw [subFirst, if_neg hc]
        simp only [List.map_cons, ih]

lemma addCargo_success (ship : Ship) (item : CargoItem)
    (h : ¬ cargoTotal ship + item.quantity > ship.maxCargo) :
    (addCargo ship item).1 = true ∧
      cargoTotal (addCargo ship item).2 = cargoTotal ship + item.quantity ∧
      (idsNodup ship → idsNodup (addCargo ship item).2) := by
  rcases hfind : ship.cargo.find? (fun c => decide (c.id = item.id)) with _ | c₀
  · have heq : addCargo ship item = (true, { ship with cargo := ship.cargo ++ [item] }) := by
      rw [addCargo, if_neg h, hfind]
    rw [heq]
    refine ⟨rfl, ?_, ?_⟩
    · simp only [cargoTotal_eq_qsum, qsum, List.map_append, List.sum_append]
      simp
    · intro hnd
      have hnotmem : item.id ∉ ship.cargo.map (fun c => c.id) := by
        intro hmem
        obtain ⟨e, he, heq'⟩ := List.mem_map.mp hmem
        have := List.find?_eq_none.mp hfind e he
        simp [heq'] at this
      have hnd' : (ship.cargo.map (fun c => c.id)).Nodup := hnd
      simp [idsNodup, List.nodup_append, hnd', hnotmem]
  · have heq : addCargo ship item = (true, { ship with cargo := bumpFirst ship.cargo item }) := by
      rw [addCargo, if_neg h, hfind]
    rw [heq]
    refine ⟨rfl, ?_, ?_⟩
    · simp only [cargoTotal_eq_qsum]
      exact qsum_bumpFirst ship.cargo item (by rw [hfind]; rfl)
    · intro hnd
      simpa [idsNodup, bumpFirst_ids] using hnd

lemma addCargo_reject (ship : Ship) (item : CargoItem)
    (h : cargoTotal ship + item.quantity > ship.maxCargo) :
    addCargo ship item = (false, ship) := by
  rw [addCargo, if_pos h]

lemma removeCargo_success (ship : Ship) (itemId : ℕ) (q : ℝ)
    (hnd : idsNodup ship) (hs : (removeCargo ship itemId q).1 = true) :
    cargoTotal (removeCargo ship itemId q).2 = cargoTotal ship - q ∧
      idsNodup (removeCargo ship itemId q).2 := by
  rcases hfind : ship.cargo.find? (fun c => decide (c.id = itemId)) with _ | c₀
  · have heq : removeCargo ship itemId q = (false, ship) := by
      rw [removeCargo]
      simp only [hfind]
    rw [heq] at hs
    simp at hs
  · by_cases hlt : c₀.quantity < q
    · have heq : removeCargo ship itemId q = (false, ship) := by
        rw [removeCargo]
        simp only [hfind]
        rw [if_pos hlt]
      rw [heq] at hs
      simp at hs
    · obtain ⟨h1, h2⟩ := remove_lists ship.cargo itemId q c₀ hnd hfind
      by_cases hle : c₀.quantity - q ≤ 0
      · have heq : removeCargo ship itemId q = (true, { ship with
            cargo := (subFirst ship.cargo itemId q).filter
              (fun c => decide (¬ c.id = itemId)) }) := by
          rw [removeCargo]
          simp only [hfind]
          rw [if_neg hlt, if_pos hle]
        rw [heq]
        have hq : c₀.quantity = q := le_antisymm (by linarith) (not_lt.mp hlt)
        constructor
        · simp only [cargoTotal_eq_qsum]
          rw [h2, hq]
        · have hsub : List.Sublist
              (((subFirst ship.cargo itemId q).filter
                (fun c => decide (¬ c.id = itemId))).map (fun c => c.id))
              ((subFirst ship.cargo itemId q).map (fun c => c.id)) :=
            (List.filter_sublist _).map _
          have hnd' : ((subFirst ship.cargo itemId q).map (fun c => c.id)).Nodup := by
            rw [subFirst_ids]
            exact hnd
          exact List.Nodup.sublist hsub hnd'
      · have heq : removeCargo ship itemId q = (true, { ship with
            cargo := subFirst ship.cargo itemId q }) := by
          rw [removeCargo]
          simp only [hfind]
          rw [if_neg hlt, if_neg hle]
        rw [heq]
        constructor
        · simp only [cargoTotal_eq_qsum]
          exact h1
        · simp only [idsNodup]
          rw [subFirst_ids]
          exact hnd

lemma removeCargo_failure (ship : Ship) (itemId : ℕ) (q : ℝ)
    (hs : (removeCargo ship itemId q).1 = false) :
    (removeCargo ship itemId q).2 = ship := by
  rcases hfind : ship.cargo.find? (fun c => decide (c.id = itemId)) with _ | c₀
  · have heq : removeCargo ship itemId q = (false, ship) := by
      rw [removeCargo]
      simp only [hfind]
    rw [heq]
  · by_cases hlt : c₀.quantity < q
    · have heq : removeCargo ship itemId q = (false, ship) := by
        rw [removeCargo]
        simp only [hfind]
        rw [if_pos hlt]
      rw [heq]
    · by_cases hle : c₀.quantity - q ≤ 0
      · have heq : removeCargo ship itemId q = (true, { ship with
            cargo := (subFirst ship.cargo itemId q).filter
              (fun c => decide (¬ c.id = itemId)) }) := by
          rw [removeCargo]
          simp only [hfind]
          rw [if_neg hlt, if_pos hle]
        rw [heq] at hs
        simp at hs
      · have heq : removeCargo ship itemId q = (true, { ship with
            cargo := subFirst ship.cargo itemId q }) := by
          rw [removeCargo]
          simp only [hfind]
          rw [if_neg hlt, if_neg hle]
        rw [heq] at hs
        simp at hs

/-- A cargo mutation: a call of `addCargo` or `removeCargo`. -/
inductive CargoOp where
  | add (item : CargoItem)
  | remove (itemId : ℕ) (quantity : ℝ)

/-- Apply one cargo operation, returning the success flag and the ship. -/
noncomputable def applyOp (ship : Ship) : CargoOp → Bool × Ship
  | .add item => addCargo ship item
  | .remove itemId q => removeCargo ship itemId q

/-- Run a sequence of cargo operations (each call mutates the ship whether
or not it succeeds — failed calls leave it unchanged). -/
noncomputable def applyOps (ship : Ship) : List CargoOp → Ship
  | [] => ship
  | op :: rest => applyOps (applyOp ship op).2 rest

/-- The signed quantity an operation accounts for when it succeeds. -/
noncomputable def opDelta : CargoOp → ℝ
  | .add item => item.quantity
  | .remove _ q => -q

/-- Every operation along the run succeeds (no addition ever hits the
capacity bound, every removal is valid). -/
def opsSucceed (ship : Ship) : List CargoOp → Prop
  | [] => True
  | op :: rest => (applyOp ship op).1 = true ∧ opsSucceed (applyOp ship op).2 rest

lemma applyOps_total : ∀ (ops : List CargoOp) (ship : Ship), idsNodup ship →
    opsSucceed ship ops →
    cargoTotal (applyOps ship ops) = cargoTotal ship + (ops.map opDelta).sum ∧
      idsNodup (applyOps ship ops) := by
  intro ops
  induction ops with
  | nil => intro ship hnd _; simp [applyOps, hnd]
  | cons op rest ih =>
      intro ship hnd hok
      obtain ⟨hop, hrest⟩ := hok
      rcases op with ⟨item⟩ | ⟨itemId, q⟩
      · have hguard : ¬ cargoTotal ship + item.quantity > ship.maxCargo := by
          intro hgt
          have := addCargo_reject ship item hgt
          simp only [applyOp] at hop
          rw [this] at hop
          simp at hop
        obtain ⟨_, htot, hnd'⟩ := addCargo_success ship item hguard
        obtain ⟨ih1, ih2⟩ := ih (applyOp ship (.add item)).2 (hnd' hnd) hrest
        refine ⟨?_, ih2⟩
        rw [applyOps, ih1]
        simp only [applyOp] at htot ⊢
        rw [htot]
        simp only [List.map_cons, List.sum_cons, opDelta]
        ring
      · simp only [applyOp] at hop
        obtain ⟨htot, hnd'⟩ := removeCargo_success ship itemId q hnd hop
        obtain ⟨ih1, ih2⟩ := ih (applyOp ship (.remove itemId q)).2 hnd' hrest
        refine ⟨?_, ih2⟩
        rw [applyOps, ih1]
        simp only [applyOp] at htot ⊢
        rw [htot]
        simp only [List.map_cons, List.sum_cons, opDelta]
        ring

end StellarDrift

namespace StellarDrift

/-- **C8.** `addCargo` rejects (returns `false`, ship unchanged) exactly
when the summed cargo quantity plus the item's quantity would exceed
`maxCargo`; on success it returns `true` and the total grows by exactly the
item's quantity (stacking onto an existing entry with the same id); and
across any sequence of `addCargo`/`removeCargo` calls that all succeed
(never hitting capacity), starting from cargo with distinct item ids, the
total quantity is exactly the initial total plus the signed sum of the
operations' quantities — nothing is lost or duplicated. -/
theorem addCargo_removeCargo_conservation :
    (∀ (ship : Ship) (item : CargoItem),
      cargoTotal ship + item.quantity > ship.maxCargo →
        addCargo ship item = (false, ship)) ∧
    (∀ (ship : Ship) (item : CargoItem),
      ¬ cargoTotal ship + item.quantity > ship.maxCargo →
        (addCargo ship item).1 = true ∧
          cargoTotal (addCargo ship item).2 = cargoTotal ship + item.quantity) ∧
    (∀ (ship : Ship) (ops : List CargoOp), idsNodup ship → opsSucceed ship ops →
      cargoTotal (applyOps ship ops) = cargoTotal ship + (ops.map opDelta).sum) := by
  refine ⟨addCargo_reject, ?_, ?_⟩
  · intro ship item h
    obtain ⟨h1, h2, _⟩ := addCargo_success ship item h
    exact ⟨h1, h2⟩
  · intro ship ops hnd hok
    exact (applyOps_total ops ship hnd hok).1

/-- A concrete cargo item (id 10, quantity 5) for witness evaluation. -/
noncomputable def wItem : CargoItem := { id := 10, quantity := 5 }

/-- A concrete ship with empty cargo and `maxCargo = 20`. -/
noncomputable def wShip : Ship :=
  { position := (0, 0), velocity := (0, 0), rotation := 0,
    health := 100, maxHealth := 100, shields := 50, maxShields := 50,
    energy := 100, maxEnergy := 100, fuel := 100, maxFuel := 100,
    cargo := [], maxCargo := 20, modules := [basicLaser, shieldBooster] }

/-- `wShip` after adding `wItem`. -/
noncomputable def wShip1 : Ship := { wShip with cargo := [wItem] }

/-- Witness for C8: starting from the empty-cargo ship, adding 5 units of
item 10 and then removing 3 units both succeed, and the theorem evaluates
the final total to `0 + (5 - 3) = 2`. -/
theorem addCargo_removeCargo_conservation_witness :
    idsNodup wShip ∧
      opsSucceed wShip [CargoOp.add wItem, CargoOp.remove 10 3] ∧
      cargoTotal (applyOps wShip [CargoOp.add wItem, CargoOp.remove 10 3]) = 2 := by
  have h1 : addCargo wShip wItem = (true, wShip1) := by
    rw [addCargo, if_neg (by norm_num [cargoTotal, wShip, wItem])]
    simp [wShip, wShip1]
  have hfind : wShip1.cargo.find? (fun c => decide (c.id = 10)) = some wItem := by
    simp [wShip1, wItem]
  have h2 : removeCargo wShip1 10 3 =
      (true, { wShip1 with cargo := [{ id := 10, quantity := 5 - 3 }] }) := by
    rw [removeCargo]
    simp only [hfind]
    rw [if_neg (by norm_num [wItem]), if_neg (by norm_num [wItem])]
    simp [wShip1, wItem, subFirst]
  have hnd : idsNodup wShip := by simp [idsNodup, wShip]
  have hok : opsSucceed wShip [CargoOp.add wItem, CargoOp.remove 10 3] := by
    simp only [opsSucceed, applyOp, h1, h2]
    exact ⟨trivial, trivial, trivial⟩
  refine ⟨hnd, hok, ?_⟩
  have htot := (addCargo_removeCargo_conservation.2.2) wShip
    [CargoOp.add wItem, CargoOp.remove 10 3] hnd hok
  rw [htot]
  norm_num [cargoTotal, wShip, opDelta, wItem]

end StellarDrift

namespace StellarDrift

/-! ## Dynamic entities and missions (types/game.ts) -/

/-- A projectile's `owner` field (`'player'` or `'enemy'`). -/
inductive Owner where
  | player
  | enemy
deriving DecidableEq

/-- A `Projectile`. -/
structure Projectile where
  id : ℕ
  position : ℝ × ℝ
  velocity : ℝ × ℝ
  life : ℝ
  damage : ℝ
  owner : Owner

/-- An `Explosion`. -/
structure Explosion where
  id : ℕ
  position : ℝ × ℝ
  life : ℝ
  scale : ℝ

/-- An `Enemy` (the AI bookkeeping fields are not consumed by the
verified operations). -/
structure Enemy where
  id : ℕ
  ship : Ship

/-- A world object's `status`. -/
inductive WOStatus where
  | DAMAGED
  | OPERATIONAL
deriving DecidableEq

/-- One `requiredItems` entry of a `WorldObject`. -/
structure RequiredItem where
  itemId : ℕ
  required : ℝ
  supplied : ℝ

/-- A `WorldObject` (damaged jump gate / broken relay). -/
structure WorldObject where
  id : ℕ
  status : WOStatus
  position : ℝ × ℝ
  requiredItems : List RequiredItem

/-- A `StarSystem`'s fields consumed by the verified operations (stations,
asteroids and cosmetics are omitted — they do not influence the claims). -/
structure StarSystemM where
  connections : List ℕ
  discovered : Bool
  worldObjects : List WorldObject

/-- A `MissionObjective`'s `type`. -/
inductive ObjectiveType where
  | TRAVEL
  | KILL
  | GATHER
  | INTERACT
  | SCAN
  | ESCORT
  | FOLLOW
deriving DecidableEq

/-- A `Mission`'s `status`. -/
inductive MissionStatus where
  | AVAILABLE
  | ACTIVE
  | COMPLETED_SUCCESS
  | COMPLETED_FAILURE
  | ABANDONED
deriving DecidableEq

/-- A `MissionObjective`; `isHidden` is optional in the source and read as
`false` when absent. -/
structure MissionObjective where
  id : ℕ
  type : ObjectiveType
  targetId : ℕ
  targetCount : ℝ
  currentProgress : ℝ
  isComplete : Bool
  isHidden : Bool

/-- A `Mission`'s fields consumed by the objective state machine. -/
structure Mission where
  id : ℕ
  status : MissionStatus
  objectives : List MissionObjective
  currentObjectiveIndex : ℕ

/-- The game store state (`useGameStore.ts`): the `GameState` fields plus
the dynamic entity lists, restricted to the fields the verified actions
read or write. -/
structure GameStore where
  player : Ship
  currentSystem : ℕ
  galaxy : List (ℕ × StarSystemM)
  credits : ℝ
  activeMissions : List Mission
  enemies : List Enemy
  projectiles : List Projectile
  explosions : List Explosion

/-! ## `fireWeapon` (useGameStore.ts lines 166-204) -/

/-- The weapon-stat accumulation loop of `fireWeapon`: starting from the
base stats `damage = 20`, `energyCost = 10`, `projectileSpeed = 300`, every
weapon-type module adds its stat bonuses.  (`if (module.stats.x)` skips
only falsy — absent or zero — stats, which is the same as adding zero.) -/
noncomputable def weaponStats (modules : List Module) : ℝ × ℝ × ℝ :=
  modules.foldl
    (fun acc m =>
      if m.type = ModuleType.weapon then
        (acc.1 + m.stats.damage, acc.2.1 + m.stats.energyCost, acc.2.2 + m.stats.projectileSpeed)
      else acc)
    (20, 10, 300)

/-- Sum of one stat over the equipped weapon-type modules. -/
noncomputable def weaponSum (f : Module → ℝ) (modules : List Module) : ℝ :=
  ((modules.filter (fun m => decide (m.type = ModuleType.weapon))).map f).sum

lemma weaponStats_fold : ∀ (modules : List Module) (a b c : ℝ),
    modules.foldl
      (fun acc m =>
        if m.type = ModuleType.weapon then
          (acc.1 + m.stats.damage, acc.2.1 + m.stats.energyCost,
            acc.2.2 + m.stats.projectileSpeed)
        else acc)
      (a, b, c) =
    (a + weaponSum (fun m => m.stats.damage) modules,
      b + weaponSum (fun m => m.stats.energyCost) modules,
      c + weaponSum (fun m => m.stats.projectileSpeed) modules) := by
  intro modules
  induction modules with
  | nil => intro a b c; simp [weaponSum]
  | cons m rest ih =>
      intro a b c
      by_cases hm : m.type = ModuleType.weapon
      · simp only [List.foldl_cons, if_pos hm, ih]
        simp only [weaponSum, List.filter_cons, hm]
        simp [List.map_cons, List.sum_cons]
        refine ⟨by ring, by ring, by ring⟩
      · simp only [List.foldl_cons, if_neg hm, ih]
        simp only [weaponSum, List.filter_cons]
        simp [hm]

lemma weaponStats_eq (modules : List Module) :
    weaponStats modules =
      (20 + weaponSum (fun m => m.stats.damage) modules,
        10 + weaponSum (fun m => m.stats.energyCost) modules,
        300 + weaponSum (fun m => m.stats.projectileSpeed) modules) :=
  weaponStats_fold modules 20 10 300

/-- `actions.fireWeapon` from `useGameStore.ts`: guard `energy < 10`,
accumulate weapon stats, append one player-owned projectile along the
ship's rotation, deduct the accumulated energy cost.  `freshId` stands for
`generateUniqueStoreId('proj')`. -/
noncomputable def fireWeapon (st : GameStore) (freshId : ℕ) : GameStore :=
  if st.player.energy < 10 then st
  else
    let stats := weaponStats st.player.modules
    let newProjectile : Projectile :=
      { id := freshId,
        position := st.player.position,
        velocity := (Real.cos st.player.rotation * stats.2.2,
                     Real.sin st.player.rotation * stats.2.2),
        life := 1,
        damage := stats.1,
        owner := Owner.player }
    { st with
      player := { st.player with energy := st.player.energy - stats.2.1 },
      projectiles := st.projectiles ++ [newProjectile] }

end StellarDrift

namespace StellarDrift

/-- **C7.** `fireWeapon` is a no-op below 10 energy; otherwise it appends
exactly one player-owned projectile whose damage is `20` plus the summed
weapon-module damage bonuses and whose velocity points along the ship's
rotation with magnitude `300` plus the summed projectile-speed bonuses
(whenever that total is non-negative), and deducts `10` plus the summed
weapon energy-cost bonuses from the player's energy. -/
theorem fireWeapon_spec (st : GameStore) (freshId : ℕ) :
    (st.player.energy < 10 → fireWeapon st freshId = st) ∧
    (10 ≤ st.player.energy →
      (fireWeapon st freshId).projectiles =
        st.projectiles ++
          [{ id := freshId,
             position := st.player.position,
             velocity := (Real.cos st.player.rotation *
                 (300 + weaponSum (fun m => m.stats.projectileSpeed) st.player.modules),
               Real.sin st.player.rotation *
                 (300 + weaponSum (fun m => m.stats.projectileSpeed) st.player.modules)),
             life := 1,
             damage := 20 + weaponSum (fun m => m.stats.damage) st.player.modules,
             owner := Owner.player }] ∧
      (fireWeapon st freshId).player.energy =
        st.player.energy - (10 + weaponSum (fun m => m.stats.energyCost) st.player.modules) ∧
      (0 ≤ 300 + weaponSum (fun m => m.stats.projectileSpeed) st.player.modules →
        Real.sqrt
          ((Real.cos st.player.rotation *
              (300 + weaponSum (fun m => m.stats.projectileSpeed) st.player.modules)) ^ 2 +
            (Real.sin st.player.rotation *
              (300 + weaponSum (fun m => m.stats.projectileSpeed) st.player.modules)) ^ 2) =
          300 + weaponSum (fun m => m.stats.projectileSpeed) st.player.modules)) := by
  constructor
  · intro h
    rw [fireWeapon, if_pos h]
  · intro h
    rw [fireWeapon, if_neg (not_lt.mpr h)]
    simp only [weaponStats_eq]
    refine ⟨trivial, trivial, ?_⟩
    intro hs
    set s := 300 + weaponSum (fun m => m.stats.projectileSpeed) st.player.modules with hsdef
    have hexp : (Real.cos st.player.rotation * s) ^ 2 + (Real.sin st.player.rotation * s) ^ 2 =
        s ^ 2 := by
      have hid := Real.sin_sq_add_cos_sq st.player.rotation
      nlinarith [hid]
    rw [hexp, Real.sqrt_sq hs]

/-- A concrete store: the starting loadout (`basic-laser`, `shield-booster`)
with full energy `100`. -/
noncomputable def wStore : GameStore :=
  { player := wShip,
    currentSystem := 0, galaxy := [], credits := 1000, activeMissions := [],
    enemies := [], projectiles := [], explosions := [] }

/-- Witness for C7 at the spec's end-to-end scenario: firing with energy
100 on the default loadout leaves energy 90 and appends exactly one
projectile of damage 20. -/
theorem fireWeapon_spec_witness :
    (10 : ℝ) ≤ wStore.player.energy ∧
      (fireWeapon wStore 0).player.energy = 90 ∧
      (fireWeapon wStore 0).projectiles.length = 1 ∧
      (fireWeapon wStore 0).projectiles.map (fun p => p.damage) = [20] := by
  have h10 : (10 : ℝ) ≤ wStore.player.energy := by norm_num [wStore, wShip]
  obtain ⟨hproj, henergy, _⟩ := (fireWeapon_spec wStore 0).2 h10
  have hsum_d : weaponSum (fun m => m.stats.damage) wStore.player.modules = 0 := by
    simp [weaponSum, wStore, wShip, basicLaser, shieldBooster]
  have hsum_e : weaponSum (fun m => m.stats.energyCost) wStore.player.modules = 0 := by
    simp [weaponSum, wStore, wShip, basicLaser, shieldBooster]
  refine ⟨h10, ?_, ?_, ?_⟩
  · rw [henergy, hsum_e]
    norm_num [wStore, wShip]
  · rw [hproj]
    simp [wStore]
  · rw [hproj, hsum_d]
    simp [wStore]

/-- **C10.** `fireWeapon`'s guard only compares energy against the base
cost 10, not the module-adjusted cost it deducts: with energy ≥ 10 the
weapon always fires and the deduction is `10` plus the weapon modules'
`energyCost` bonuses, so with the missile launcher (bonus `+5`) equipped
and `10 ≤ energy < 15` the post-fire energy is strictly negative — the
action never clamps energy at zero. -/
theorem fireWeapon_energy_goes_negative (st : GameStore) (freshId : ℕ)
    (h : 10 ≤ st.player.energy) :
    (fireWeapon st freshId).projectiles.length = st.projectiles.length + 1 ∧
    (fireWeapon st freshId).player.energy =
      st.player.energy - (10 + weaponSum (fun m => m.stats.energyCost) st.player.modules) ∧
    (st.player.modules = [missileLauncher] → st.player.energy < 15 →
      (fireWeapon st freshId).player.energy < 0) := by
  rw [fireWeapon, if_neg (not_lt.mpr h)]
  simp only [weaponStats_eq]
  refine ⟨by simp, trivial, ?_⟩
  intro hmods hlt
  have hsum : weaponSum (fun m => m.stats.energyCost) st.player.modules = 5 := by
    rw [hmods]
    simp [weaponSum, missileLauncher]
  simp only [hsum]
  linarith

/-- A concrete store with only the missile launcher and 12 energy. -/
noncomputable def wStore10 : GameStore :=
  { player := { wShip with energy := 12, modules := [missileLauncher] },
    currentSystem := 0, galaxy := [], credits := 1000, activeMissions := [],
    enemies := [], projectiles := [], explosions := [] }

/-- Witness for C10: with 12 energy and the missile launcher (cost 15),
the weapon fires and leaves the player at strictly negative energy `-3`. -/
theorem fireWeapon_energy_goes_negative_witness :
    (10 : ℝ) ≤ wStore10.player.energy ∧
      (fireWeapon wStore10 0).projectiles.length = 1 ∧
      (fireWeapon wStore10 0).player.energy < 0 ∧
      (fireWeapon wStore10 0).player.energy = -3 := by
  have h10 : (10 : ℝ) ≤ wStore10.player.energy := by norm_num [wStore10, wShip]
  obtain ⟨hlen, henergy, hneg⟩ := fireWeapon_energy_goes_negative wStore10 0 h10
  have hmods : wStore10.player.modules = [missileLauncher] := by rfl
  have hlt : wStore10.player.energy < 15 := by norm_num [wStore10, wShip]
  have hsum : weaponSum (fun m => m.stats.energyCost) wStore10.player.modules = 5 := by
    simp [weaponSum, wStore10, missileLauncher]
  refine ⟨h10, ?_, hneg hmods hlt, ?_⟩
  · rw [hlen]
    simp [wStore10]
  · rw [henergy, hsum]
    norm_num [wStore10, wShip]

end StellarDrift

namespace StellarDrift

/-! ## `jumpToSystem` (useGameStore.ts lines 206-241) -/

/-- `newGalaxy[id] = { ...newGalaxy[id], discovered: true }`. -/
noncomputable def setDiscovered (galaxy : List (ℕ × StarSystemM)) (id : ℕ) :
    List (ℕ × StarSystemM) :=
  galaxy.map (fun p => if p.1 = id then (p.1, { p.2 with discovered := true }) else p)

/-- `actions.jumpToSystem` from `useGameStore.ts`: guard `fuel < 10`; guard
that the target exists and is a connection of the current system; then mark
the target discovered, probabilistically discover its neighbours
(`discoverRand` stands for the per-neighbour `Math.random() < 0.3` draw),
move to the target, spend 10 fuel, reset position/velocity to the origin
and clear all dynamic entities.  (A missing current system would throw in
the source; such states are excluded by hypothesis in the theorems.) -/
noncomputable def jumpToSystem (st : GameStore) (systemId : ℕ)
    (discoverRand : ℕ → Bool) : GameStore :=
  if st.player.fuel < 10 then st
  else
    match st.galaxy.lookup st.currentSystem with
    | none => st
    | some currentSystem =>
      match st.galaxy.lookup systemId with
      | none => st
      | some targetSystem =>
        if systemId ∈ currentSystem.connections then
          let galaxy₁ := setDiscovered st.galaxy systemId
          let galaxy₂ := targetSystem.connections.foldl
            (fun g connectedId =>
              if discoverRand connectedId then setDiscovered g connectedId else g)
            galaxy₁
          { st with
            currentSystem := systemId,
            galaxy := galaxy₂,
            player := { st.player with
              fuel := st.player.fuel - 10,
              position := (0, 0),
              velocity := (0, 0) },
            enemies := [],
            projectiles := [],
            explosions := [] }
        else st

/-- The galaxy maps `id` to a system currently marked discovered. -/
def lookupDiscovered (galaxy : List (ℕ × StarSystemM)) (id : ℕ) : Prop :=
  ∃ t, galaxy.lookup id = some t ∧ t.discovered = true

lemma lookup_setDiscovered_self : ∀ (galaxy : List (ℕ × StarSystemM)) (id : ℕ),
    (galaxy.lookup id).isSome → lookupDiscovered (setDiscovered galaxy id) id := by
  intro galaxy id
  induction galaxy with
  | nil => intro h; simp [List.lookup] at h
  | cons p rest ih =>
      intro h
      by_cases hp : p.1 = id
      · have hbeq : (id == p.1) = true := beq_iff_eq.mpr hp.symm
        refine ⟨{ p.2 with discovered := true }, ?_, rfl⟩
        simp only [setDiscovered, List.map_cons, if_pos hp]
        simp only [List.lookup, hbeq]
      · have hbeq : (id == p.1) = false := beq_eq_false_iff_ne.mpr (Ne.symm hp)
        have h' : (rest.lookup id).isSome := by
          simp only [List.lookup, hbeq] at h
          exact h
        obtain ⟨t, ht, htd⟩ := ih h'
        refine ⟨t, ?_, htd⟩
        simp only [setDiscovered, List.map_cons, if_neg hp]
        simp only [List.lookup, hbeq]
        simpa [setDiscovered] using ht

lemma lookup_setDiscovered_preserves : ∀ (galaxy : List (ℕ × StarSystemM)) (id j : ℕ),
    lookupDiscovered galaxy id → lookupDiscovered (setDiscovered galaxy j) id := by
  intro galaxy id j
  induction galaxy with
  | nil => intro h; obtain ⟨t, ht, _⟩ := h; simp [List.lookup] at ht
  | cons p rest ih =>
      rintro ⟨t, ht, htd⟩
      by_cases hp : p.1 = id
      · have hbeq : (id == p.1) = true := beq_iff_eq.mpr hp.symm
        have hval : t = p.2 := by
          simp only [List.lookup, hbeq] at ht
          injection ht with h
          exact h.symm
        by_cases hpj : p.1 = j
        · refine ⟨{ p.2 with discovered := true }, ?_, rfl⟩
          simp only [setDiscovered, List.map_cons, if_pos hpj]
          simp only [List.lookup, hbeq]
        · refine ⟨t, ?_, htd⟩
          simp only [setDiscovered, List.map_cons, if_neg hpj]
          simp only [List.lookup, hbeq]
          rw [hval]
      · have hbeq : (id == p.1) = false := beq_eq_false_iff_ne.mpr (Ne.symm hp)
        have ht' : rest.lookup id = some t := by
          simp only [List.lookup, hbeq] at ht
          exact ht
        obtain ⟨t', ht'', htd'⟩ := ih ⟨t, ht', htd⟩
        refine ⟨t', ?_, htd'⟩
        by_cases hpj : p.1 = j
        · simp only [setDiscovered, List.map_cons, if_pos hpj]
          simp only [List.lookup, hbeq]
          simpa [setDiscovered] using ht''
        · simp only [setDiscovered, List.map_cons, if_neg hpj]
          simp only [List.lookup, hbeq]
          simpa [setDiscovered] using ht''

lemma discoverFold_preserves (discoverRand : ℕ → Bool) (id : ℕ) :
    ∀ (l : List ℕ) (g : List (ℕ × StarSystemM)), lookupDiscovered g id →
      lookupDiscovered
        (l.foldl (fun g c => if discoverRand c then setDiscovered g c else g) g) id := by
  intro l
  induction l with
  | nil => intro g h; exact h
  | cons c rest ih =>
      intro g h
      simp only [List.foldl_cons]
      apply ih
      by_cases hc : discoverRand c
      · rw [if_pos hc]
        exact lookup_setDiscovered_preserves g id c h
      · rw [if_neg hc]
        exact h

end StellarDrift

namespace StellarDrift

/-- **C6.** `jumpToSystem(id)` succeeds exactly when the player's fuel is
at least 10 and `id` is a connection of the current system: on success it
subtracts exactly 10 fuel, resets position and velocity to the origin,
clears the enemies/projectiles/explosions lists, moves to the target and
marks it discovered; on failure (insufficient fuel or non-connected
target) the entire store state is unchanged.  The hypotheses say the
current system is present and connections reference existing systems, as
holds for every generated galaxy. -/
theorem jumpToSystem_spec (st : GameStore) (systemId : ℕ) (discoverRand : ℕ → Bool)
    (cur : StarSystemM) (hcur : st.galaxy.lookup st.currentSystem = some cur)
    (hvalid : systemId ∈ cur.connections → (st.galaxy.lookup systemId).isSome) :
    (st.player.fuel < 10 → jumpToSystem st systemId discoverRand = st) ∧
    (¬ st.player.fuel < 10 → systemId ∉ cur.connections →
      jumpToSystem st systemId discoverRand = st) ∧
    (¬ st.player.fuel < 10 → systemId ∈ cur.connections →
      (jumpToSystem st systemId discoverRand).currentSystem = systemId ∧
      (jumpToSystem st systemId discoverRand).player.fuel = st.player.fuel - 10 ∧
      (jumpToSystem st systemId discoverRand).player.position = (0, 0) ∧
      (jumpToSystem st systemId discoverRand).player.velocity = (0, 0) ∧
      (jumpToSystem st systemId discoverRand).enemies = [] ∧
      (jumpToSystem st systemId discoverRand).projectiles = [] ∧
      (jumpToSystem st systemId discoverRand).explosions = [] ∧
      lookupDiscovered (jumpToSystem st systemId discoverRand).galaxy systemId) := by
  refine ⟨?_, ?_, ?_⟩
  · intro h
    rw [jumpToSystem, if_pos h]
  · intro h hnc
    rw [jumpToSystem, if_neg h]
    simp only [hcur]
    rcases htgt : st.galaxy.lookup systemId with _ | tgt
    · simp only [htgt]
    · simp only [htgt]
      rw [if_neg hnc]
  · intro h hc
    have hsome := hvalid hc
    rcases htgt : st.galaxy.lookup systemId with _ | tgt
    · rw [htgt] at hsome
      simp at hsome
    · have heq : jumpToSystem st systemId discoverRand =
          { st with
            currentSystem := systemId,
            galaxy := tgt.connections.foldl
              (fun g connectedId =>
                if discoverRand connectedId then setDiscovered g connectedId else g)
              (setDiscovered st.galaxy systemId),
            player := { st.player with
              fuel := st.player.fuel - 10,
              position := (0, 0),
              velocity := (0, 0) },
            enemies := [],
            projectiles := [],
            explosions := [] } := by
        rw [jumpToSystem, if_neg h]
        simp only [hcur, htgt]
        rw [if_pos hc]
      rw [heq]
      refine ⟨rfl, rfl, rfl, rfl, rfl, rfl, rfl, ?_⟩
      apply discoverFold_preserves
      apply lookup_setDiscovered_self
      rw [htgt]
      rfl

/-- A concrete two-system galaxy: system 0 (discovered, connected to 1)
and system 1 (undiscovered, connected to 0). -/
noncomputable def wSys0 : StarSystemM :=
  { connections := [1], discovered := true, worldObjects := [] }

/-- System 1 of the witness galaxy. -/
noncomputable def wSys1 : StarSystemM :=
  { connections := [0], discovered := false, worldObjects := [] }

/-- A concrete store in system 0 with 50 fuel. -/
noncomputable def wJStore : GameStore :=
  { player := { wShip with fuel := 50 },
    currentSystem := 0, galaxy := [(0, wSys0), (1, wSys1)], credits := 0,
    activeMissions := [], enemies := [], projectiles := [], explosions := [] }

/-- Witness for C6: jumping from system 0 (fuel 50) to the connected
system 1 moves there, leaves 40 fuel, and marks system 1 discovered. -/
theorem jumpToSystem_spec_witness :
    wJStore.galaxy.lookup wJStore.currentSystem = some wSys0 ∧
      (1 ∈ wSys0.connections ∧ ¬ wJStore.player.fuel < 10) ∧
      (jumpToSystem wJStore 1 (fun _ => false)).currentSystem = 1 ∧
      (jumpToSystem wJStore 1 (fun _ => false)).player.fuel = 40 ∧
      (jumpToSystem wJStore 1 (fun _ => false)).enemies = [] ∧
      lookupDiscovered (jumpToSystem wJStore 1 (fun _ => false)).galaxy 1 := by
  have hcur : wJStore.galaxy.lookup wJStore.currentSystem = some wSys0 := rfl
  have hconn : 1 ∈ wSys0.connections := by simp [wSys0]
  have hfuel : ¬ wJStore.player.fuel < 10 := by norm_num [wJStore, wShip]
  have hvalid : 1 ∈ wSys0.connections → (wJStore.galaxy.lookup 1).isSome := by
    intro _
    rfl
  obtain ⟨_, _, h3⟩ := jumpToSystem_spec wJStore 1 (fun _ => false) wSys0 hcur hvalid
  obtain ⟨hc, hf, _, _, he, _, _, hd⟩ := h3 hfuel hconn
  refine ⟨hcur, ⟨hconn, hfuel⟩, hc, ?_, he, hd⟩
  rw [hf]
  norm_num [wJStore, wShip]

end StellarDrift

namespace StellarDrift

/-! ## Game loop collision resolution (GameLoop.updateCollisionsInternal) -/

/-- The game loop's internal working state for one tick. -/
structure LoopState where
  player : Ship
  enemies : List Enemy
  projectiles : List Projectile
  explosions : List Explosion

/-- The inner `this.internalEnemies.forEach` pass for one player-owned
projectile: within hit radius 20, zero the projectile's life, subtract the
projectile's damage **directly from the enemy ship's health** (the source
does `enemy.ship.health -= projectile.damage`, never touching shields and
never calling the imported `applyCollisionDamage`), and push an explosion.
`k` threads the unique-id counter for the pushed explosions. -/
noncomputable def hitEnemies (p : Projectile) (enemies : List Enemy)
    (explosions : List Explosion) (k : ℕ) :
    Projectile × List Enemy × List Explosion × ℕ :=
  enemies.foldl
    (fun acc e =>
      if distance acc.1.position e.ship.position < 20 then
        ({ acc.1 with life := 0 },
          acc.2.1 ++ [{ e with ship := { e.ship with health := e.ship.health - acc.1.damage } }],
          acc.2.2.1 ++ [{ id := acc.2.2.2, position := e.ship.position, life := 1 / 2, scale := 1 }],
          acc.2.2.2 + 1)
      else (acc.1, acc.2.1 ++ [e], acc.2.2.1, acc.2.2.2))
    (p, [], explosions, k)

/-- The player-collision branch for one enemy-owned projectile: within hit
radius 20, zero the projectile's life and subtract the damage directly from
the player's health (`this.internalPlayerState.health -= projectile.damage`,
no shield absorption, no clamping at zero). -/
noncomputable def hitPlayer (p : Projectile) (player : Ship)
    (explosions : List Explosion) (k : ℕ) :
    Projectile × Ship × List Explosion × ℕ :=
  if distance p.position player.position < 20 then
    ({ p with life := 0 },
      { player with health := player.health - p.damage },
      explosions ++ [{ id := k, position := player.position, life := 1 / 2, scale := 1 }],
      k + 1)
  else (p, player, explosions, k)

/-- `GameLoop.updateCollisionsInternal`: process every projectile against
the opposing side, then drop dead projectiles (`life ≤ 0`) and dead enemies
(`health ≤ 0`). -/
noncomputable def updateCollisionsInternal (st : LoopState) (k : ℕ) : LoopState :=
  let res := st.projectiles.foldl
    (fun acc p =>
      match p.owner with
      | Owner.player =>
          let r := hitEnemies p acc.2.2.1 acc.2.2.2.1 acc.2.2.2.2
          (acc.1 ++ [r.1], acc.2.1, r.2.1, r.2.2.1, r.2.2.2)
      | Owner.enemy =>
          let r := hitPlayer p acc.2.1 acc.2.2.2.1 acc.2.2.2.2
          (acc.1 ++ [r.1], r.2.1, acc.2.2.1, r.2.2.1, r.2.2.2))
    (([] : List Projectile), st.player, st.enemies, st.explosions, k)
  { player := res.2.1,
    enemies := res.2.2.1.filter (fun e => decide (e.ship.health > 0)),
    projectiles := res.1.filter (fun p => decide (p.life > 0)),
    explosions := res.2.2.2.1 }

/-- The spawned-enemy ship from `spawnEnemy` (health 60, shields 20),
placed at the origin. -/
noncomputable def cEnemyShip : Ship :=
  { wShip with
    position := (0, 0),
    health := 60,
    maxHealth := 60,
    shields := 20,
    maxShields := 20 }

/-- A player projectile of damage 20 sitting on the enemy. -/
noncomputable def cProj : Projectile :=
  { id := 0, position := (0, 0), velocity := (0, 0), life := 1, damage := 20,
    owner := Owner.player }

/-- Loop state: one enemy at the origin, one player projectile on it. -/
noncomputable def cState : LoopState :=
  { player := { wShip with position := (100, 100) },
    enemies := [{ id := 1, ship := cEnemyShip }],
    projectiles := [cProj],
    explosions := [] }

/-- An enemy projectile of damage 15 sitting on the player. -/
noncomputable def cProjE : Projectile :=
  { id := 0, position := (0, 0), velocity := (0, 0), life := 1, damage := 15,
    owner := Owner.enemy }

/-- Loop state: player at the origin with 10 health and 50 shields, one
enemy projectile on them. -/
noncomputable def cStateE : LoopState :=
  { player := { wShip with position := (0, 0), health := 10, shields := 50 },
    enemies := [],
    projectiles := [cProjE],
    explosions := [] }

lemma distance_zero_lt_20 : distance ((0 : ℝ), (0 : ℝ)) ((0 : ℝ), (0 : ℝ)) < 20 := by
  simp [distance]

end StellarDrift

namespace StellarDrift

/-- **C2 (code bug evidence).** In the game loop's collision resolution a
hit does *not* route damage through the shields: a damage-20 player
projectile hitting the spawned enemy (health 60, shields 20) leaves the
enemy at health 40 with shields still 20 — whereas the repository's own
`applyCollisionDamage` helper (imported by the game loop but never called
there) absorbs the same 20 damage entirely with the shields, leaving
health 60 and shields 0.  Likewise an enemy projectile of damage 15 drives
a 10-health player to health `-5`: health is not clamped at zero. -/
theorem updateCollisionsInternal_bypasses_shields :
    ((updateCollisionsInternal cState 0).enemies.map (fun e => e.ship.health) = [40] ∧
      (updateCollisionsInternal cState 0).enemies.map (fun e => e.ship.shields) = [20]) ∧
    ((applyCollisionDamage cEnemyShip 20).health = 60 ∧
      (applyCollisionDamage cEnemyShip 20).shields = 0) ∧
    (updateCollisionsInternal cStateE 0).player.health = -5 := by
  refine ⟨⟨?_, ?_⟩, ⟨?_, ?_⟩, ?_⟩
  · norm_num [updateCollisionsInternal, hitEnemies, cState, cProj, cEnemyShip, wShip,
      distance, List.filter_cons, Real.sqrt_zero]
  · norm_num [updateCollisionsInternal, hitEnemies, cState, cProj, cEnemyShip, wShip,
      distance, List.filter_cons, Real.sqrt_zero]
  · norm_num [applyCollisionDamage, cEnemyShip, wShip]
  · norm_num [applyCollisionDamage, cEnemyShip, wShip]
  · norm_num [updateCollisionsInternal, hitPlayer, cStateE, cProjE, wShip,
      distance, Real.sqrt_zero]

end StellarDrift

namespace StellarDrift

/-! ## Mission objective state machine (MissionManager.updateMissionProgress) -/

/-- The INTERACT proximity check's distance,
`Math.sqrt(Math.pow(px-ox,2) + Math.pow(py-oy,2))`. -/
noncomputable def interactDistance (st : GameStore) (wo : WorldObject) : ℝ :=
  Real.sqrt ((st.player.position.1 - wo.position.1) ^ 2 +
    (st.player.position.2 - wo.position.2) ^ 2)

/-- `targetObject.requiredItems.every(...)`: every required item has a cargo
entry with at least the required quantity. -/
noncomputable def hasAllMaterialsB (st : GameStore) (wo : WorldObject) : Bool :=
  wo.requiredItems.all (fun item =>
    match st.player.cargo.find? (fun c => decide (c.id = item.itemId)) with
    | some playerItem => decide (playerItem.quantity ≥ item.required)
    | none => false)

/-- The `switch (currentObjective.type)` of `updateMissionProgress`,
returning the `objectiveCompleted` flag and the objective's new
`currentProgress` (GATHER writes progress even when incomplete; SCAN,
ESCORT and FOLLOW are unimplemented in the source and fall through). -/
noncomputable def objectiveOutcome (st : GameStore) (currentObjective : MissionObjective) :
    Bool × ℝ :=
  match currentObjective.type with
  | .TRAVEL =>
      if st.currentSystem = currentObjective.targetId then (true, 1)
      else (false, currentObjective.currentProgress)
  | .GATHER =>
      let progress :=
        match st.player.cargo.find? (fun c => decide (c.id = currentObjective.targetId)) with
        | some item => item.quantity
        | none => 0
      (decide (progress ≥ currentObjective.targetCount), progress)
  | .KILL =>
      (decide (currentObjective.currentProgress ≥ currentObjective.targetCount),
        currentObjective.currentProgress)
  | .INTERACT =>
      match st.galaxy.lookup st.currentSystem with
      | none => (false, currentObjective.currentProgress)
      | some sys =>
        match sys.worldObjects.find? (fun o => decide (o.id = currentObjective.targetId)) with
        | none => (false, currentObjective.currentProgress)
        | some targetObject =>
          if targetObject.status = WOStatus.DAMAGED then
            if interactDistance st targetObject ≤ 50 then
              if hasAllMaterialsB st targetObject then (true, 1)
              else (false, currentObjective.currentProgress)
            else (false, currentObjective.currentProgress)
          else (false, currentObjective.currentProgress)
  | _ => (false, currentObjective.currentProgress)

/-- One `activeMissions.map` step of `updateMissionProgress`: skip
non-ACTIVE missions, missing objectives and already-complete objectives;
otherwise evaluate the current objective, and on completion mark it
complete, reveal the next objective if hidden, and advance
`currentObjectiveIndex` unless it was the final objective. -/
noncomputable def updateMission (st : GameStore) (mission : Mission) : Mission :=
  if mission.status ≠ MissionStatus.ACTIVE then mission
  else
    match mission.objectives[mission.currentObjectiveIndex]? with
    | none => mission
    | some currentObjective =>
      if currentObjective.isComplete then mission
      else
        let outcome := objectiveOutcome st currentObjective
        let obj' := { currentObjective with
          currentProgress := outcome.2, isComplete := outcome.1 }
        let objectives₁ := mission.objectives.set mission.currentObjectiveIndex obj'
        if outcome.1 then
          if mission.currentObjectiveIndex < mission.objectives.length - 1 then
            let objectives₂ :=
              match objectives₁[mission.currentObjectiveIndex + 1]? with
              | some next =>
                  if next.isHidden then
                    objectives₁.set (mission.currentObjectiveIndex + 1)
                      { next with isHidden := false }
                  else objectives₁
              | none => objectives₁
            { mission with
              objectives := objectives₂,
              currentObjectiveIndex := mission.currentObjectiveIndex + 1 }
          else { mission with objectives := objectives₁ }
        else { mission with objectives := objectives₁ }

/-- `MissionManager.updateMissionProgress`: map the per-mission step over
`activeMissions`, leaving the rest of the state unchanged. -/
noncomputable def updateMissionProgress (st : GameStore) : GameStore :=
  { st with activeMissions := st.activeMissions.map (updateMission st) }

/-- The player's cargo covers every required item of the world object
(the `find?`-based reading of the source's `every` check). -/
def hasAllMaterials (st : GameStore) (wo : WorldObject) : Prop :=
  ∀ item ∈ wo.requiredItems,
    ∃ playerItem, st.player.cargo.find? (fun c => decide (c.id = item.itemId)) = some playerItem ∧
      item.required ≤ playerItem.quantity

lemma hasAllMaterialsB_iff (st : GameStore) (wo : WorldObject) :
    hasAllMaterialsB st wo = true ↔ hasAllMaterials st wo := by
  rw [hasAllMaterialsB, List.all_eq_true]
  constructor
  · intro h item hitem
    have hi := h item hitem
    rcases hfind : st.player.cargo.find? (fun c => decide (c.id = item.itemId)) with _ | pi
    · rw [hfind] at hi
      simp at hi
    · rw [hfind] at hi
      simp only [decide_eq_true_eq] at hi
      exact ⟨pi, hfind, hi⟩
  · intro h item hitem
    obtain ⟨pi, hfind, hq⟩ := h item hitem
    rw [hfind]
    simpa using hq

lemma list_set_self : ∀ (l : List MissionObjective) (n : ℕ) (a : MissionObjective),
    l[n]? = some a → l.set n a = l := by
  intro l
  induction l with
  | nil => intro n a h; simp at h
  | cons x rest ih =>
      intro n a h
      cases n with
      | zero =>
          simp only [List.getElem?_cons_zero] at h
          injection h with h
          rw [← h]
          rfl
      | succ n =>
          simp only [List.getElem?_cons_succ] at h
          simp only [List.set_cons_succ]
          rw [ih n a h]

end StellarDrift

namespace StellarDrift

/-- **C9.** In `updateMissionProgress` (which maps the per-mission step
over `activeMissions`), an active mission whose current objective is an
INTERACT objective targeting a DAMAGED world object in the current system
completes that objective exactly when the player is within distance 50 of
the object and the cargo holds at least the required quantity of every
required item; on completion the objective is marked complete with
progress 1, the next objective (if any) is revealed and
`currentObjectiveIndex` advances by one, while on the final objective the
index does not advance; otherwise the mission is returned unchanged. -/
theorem updateMissionProgress_interact_spec (st : GameStore) (mission : Mission)
    (obj : MissionObjective) (sys : StarSystemM) (wo : WorldObject)
    (hactive : mission.status = MissionStatus.ACTIVE)
    (hobj : mission.objectives[mission.currentObjectiveIndex]? = some obj)
    (hnc : obj.isComplete = false)
    (htype : obj.type = ObjectiveType.INTERACT)
    (hsys : st.galaxy.lookup st.currentSystem = some sys)
    (hwo : sys.worldObjects.find? (fun o => decide (o.id = obj.targetId)) = some wo)
    (hdam : wo.status = WOStatus.DAMAGED) :
    (updateMissionProgress st).activeMissions = st.activeMissions.map (updateMission st) ∧
    (¬ (interactDistance st wo ≤ 50 ∧ hasAllMaterials st wo) →
      updateMission st mission = mission) ∧
    ((interactDistance st wo ≤ 50 ∧ hasAllMaterials st wo) →
      (updateMission st mission).objectives[mission.currentObjectiveIndex]? =
        some { obj with currentProgress := 1, isComplete := true } ∧
      (mission.currentObjectiveIndex < mission.objectives.length - 1 →
        (updateMission st mission).currentObjectiveIndex =
          mission.currentObjectiveIndex + 1 ∧
        (∀ next, mission.objectives[mission.currentObjectiveIndex + 1]? = some next →
          (updateMission st mission).objectives[mission.currentObjectiveIndex + 1]? =
            some { next with isHidden := false })) ∧
      (¬ mission.currentObjectiveIndex < mission.objectives.length - 1 →
        (updateMission st mission).currentObjectiveIndex =
          mission.currentObjectiveIndex)) := by
  have hidx : mission.currentObjectiveIndex < mission.objectives.length := by
    rcases List.getElem?_eq_some.mp hobj with ⟨h, _⟩
    exact h
  refine ⟨rfl, ?_, ?_⟩
  · -- incomplete: the mission is returned unchanged
    intro hnot
    have houtcome : objectiveOutcome st obj = (false, obj.currentProgress) := by
      simp only [objectiveOutcome, htype, hsys, hwo]
      rw [if_pos hdam]
      by_cases h50 : interactDistance st wo ≤ 50
      · rw [if_pos h50]
        have hmat : ¬ hasAllMaterialsB st wo = true := by
          rw [hasAllMaterialsB_iff]
          intro hm
          exact hnot ⟨h50, hm⟩
        rw [if_neg hmat]
      · rw [if_neg h50]
    have hobj' : ({ obj with
        currentProgress := obj.currentProgress, isComplete := false } : MissionObjective) = obj := by
      rw [← hnc]
    rw [updateMission, if_neg (by simp [hactive])]
    simp only [hobj]
    rw [if_neg (by simp [hnc])]
    simp only [houtcome]
    rw [hobj']
    rw [list_set_self mission.objectives mission.currentObjectiveIndex obj hobj]
    simp
  · -- complete: mark, reveal, advance
    rintro ⟨h50, hmat⟩
    have houtcome : objectiveOutcome st obj = (true, 1) := by
      simp only [objectiveOutcome, htype, hsys, hwo]
      rw [if_pos hdam, if_pos h50, if_pos ((hasAllMaterialsB_iff st wo).mpr hmat)]
    have hum : updateMission st mission =
        (if mission.currentObjectiveIndex < mission.objectives.length - 1 then
          { mission with
            objectives :=
              (match (mission.objectives.set mission.currentObjectiveIndex
                  { obj with currentProgress := 1, isComplete := true })[mission.currentObjectiveIndex + 1]? with
                | some next =>
                    if next.isHidden then
                      (mission.objectives.set mission.currentObjectiveIndex
                        { obj with currentProgress := 1, isComplete := true }).set
                        (mission.currentObjectiveIndex + 1) { next with isHidden := false }
                    else
                      mission.objectives.set mission.currentObjectiveIndex
                        { obj with currentProgress := 1, isComplete := true }
                | none =>
                    mission.objectives.set mission.currentObjectiveIndex
                      { obj with currentProgress := 1, isComplete := true }),
            currentObjectiveIndex := mission.currentObjectiveIndex + 1 }
        else
          { mission with
            objectives := mission.objectives.set mission.currentObjectiveIndex
              { obj with currentProgress := 1, isComplete := true } }) := by
      rw [updateMission, if_neg (by simp [hactive])]
      simp only [hobj]
      rw [if_neg (by simp [hnc])]
      simp only [houtcome]
      simp
    by_cases hlast : mission.currentObjectiveIndex < mission.objectives.length - 1
    · rw [hum, if_pos hlast]
      have hne : mission.currentObjectiveIndex + 1 ≠ mission.currentObjectiveIndex := by omega
      have hsucc : mission.currentObjectiveIndex + 1 < mission.objectives.length := by omega
      rcases hn : (mission.objectives.set mission.currentObjectiveIndex
          { obj with currentProgress := 1, isComplete := true })[mission.currentObjectiveIndex + 1]? with _ | next₀
      · -- impossible: index+1 is in range
        rw [List.getElem?_eq_none_iff] at hn
        rw [List.length_set] at hn
        omega
      · simp only [hn]
        have hn' : mission.objectives[mission.currentObjectiveIndex + 1]? = some next₀ := by
          rw [← hn, List.getElem?_set_ne hne.symm]
        refine ⟨?_, ?_, ?_⟩
        · -- the current objective is marked complete
          by_cases hhid : next₀.isHidden
          · rw [if_pos hhid]
            rw [List.getElem?_set_ne (by omega), List.getElem?_set_eq_of_lt _ hidx]
          · rw [if_neg hhid]
            rw [List.getElem?_set_eq_of_lt _ hidx]
        · intro _
          constructor
          · trivial
          · intro next hnext
            have hnn : next = next₀ := Option.some.inj (hnext.symm.trans hn')
            subst hnn
            by_cases hhid : next.isHidden
            · rw [if_pos hhid]
              have : mission.currentObjectiveIndex + 1 <
                  (mission.objectives.set mission.currentObjectiveIndex
                    { obj with currentProgress := 1, isComplete := true }).length := by
                rw [List.length_set]
                omega
              rw [List.getElem?_set_eq_of_lt _ this]
            · rw [if_neg hhid]
              rw [List.getElem?_set_ne hne.symm, hnext]
              have heta : ({ next with isHidden := false } : MissionObjective) = next := by
                rw [← (by simpa using hhid : next.isHidden = false)]
              rw [heta]
        · intro h
          exact absurd hlast h
    · rw [hum, if_neg hlast]
      refine ⟨?_, ?_, ?_⟩
      · rw [List.getElem?_set_eq_of_lt _ hidx]
      · intro h
        exact absurd h hlast
      · intro _
        rfl

/-- A damaged world object requiring 5 units of item 20. -/
noncomputable def mWo : WorldObject :=
  { id := 7, status := .DAMAGED, position := (0, 0),
    requiredItems := [{ itemId := 20, required := 5, supplied := 0 }] }

/-- The witness system containing the damaged object. -/
noncomputable def mSys : StarSystemM :=
  { connections := [], discovered := true, worldObjects := [mWo] }

/-- A final INTERACT objective targeting the damaged object. -/
noncomputable def mObj : MissionObjective :=
  { id := 0, type := .INTERACT, targetId := 7, targetCount := 1,
    currentProgress := 0, isComplete := false, isHidden := false }

/-- An active repair mission whose only (hence final) objective is `mObj`. -/
noncomputable def mMission : Mission :=
  { id := 0, status := .ACTIVE, objectives := [mObj], currentObjectiveIndex := 0 }

/-- The witness store: player on top of the object with the required cargo. -/
noncomputable def mStore : GameStore :=
  { player := { wShip with position := (0, 0), cargo := [{ id := 20, quantity := 5 }] },
    currentSystem := 3, galaxy := [(3, mSys)], credits := 0,
    activeMissions := [mMission], enemies := [], projectiles := [], explosions := [] }

/-- Witness for C9 at the spec's repair scenario: the player, within
radius 50 of the DAMAGED object and holding all required materials,
completes the final INTERACT objective; the index does not advance
(mission awaits turn-in). -/
theorem updateMissionProgress_interact_spec_witness :
    (mMission.status = MissionStatus.ACTIVE ∧
      interactDistance mStore mWo ≤ 50 ∧ hasAllMaterials mStore mWo) ∧
      (updateMission mStore mMission).objectives[(0 : ℕ)]? =
        some { mObj with currentProgress := 1, isComplete := true } ∧
      (updateMission mStore mMission).currentObjectiveIndex = 0 := by
  have h50 : interactDistance mStore mWo ≤ 50 := by
    norm_num [interactDistance, mStore, mWo, wShip, Real.sqrt_zero]
  have hmat : hasAllMaterials mStore mWo := by
    intro item hitem
    simp only [mWo, List.mem_singleton] at hitem
    subst hitem
    refine ⟨{ id := 20, quantity := 5 }, ?_, by norm_num⟩
    rfl
  have hwo : mSys.worldObjects.find? (fun o => decide (o.id = mObj.targetId)) = some mWo := rfl
  obtain ⟨_, _, h3⟩ := updateMissionProgress_interact_spec mStore mMission mObj mSys mWo
    rfl rfl rfl rfl rfl hwo rfl
  obtain ⟨hc, _, hfinal⟩ := h3 ⟨h50, hmat⟩
  refine ⟨⟨rfl, h50, hmat⟩, hc, ?_⟩
  apply hfinal
  norm_num [mMission]

end StellarDrift
